import Mathlib

/-!
Verification of the reciprocity-mechanism prototype
(`project1_incentive_design_prototype.py`).

The Python source is shallowly embedded below.  Python `int` is modelled as
`ℤ`.  Python `float` values are IEEE-754 binary64 numbers; every such value is
an exact rational, so float-valued fields are modelled as `ℚ`, and every
arithmetic operation the program performs on floats is modelled by the exact
rational result rounded back to binary64 with round-to-nearest, ties-to-even
(`floatRound` below; the program only ever rounds values in the normal range,
far from overflow and underflow, where this rounding function is exactly the
IEEE behaviour).  Python `dict` (insertion ordered, unique keys) is modelled
as an association list; `time.time()` readings and `random` draws are
modelled as injected streams, as §9 of the design document prescribes for a
reimplementation.  A `KeyError` raised by an operation is modelled with
`Except`, paired with the state the engine holds at the moment of the raise.
-/

namespace IncentiveDesign

/-! ## IEEE-754 binary64 rounding, as exact rational arithmetic -/

/-- Round a rational to the nearest integer, ties to even. -/
def rne (x : ℚ) : ℤ :=
  if x - ⌊x⌋ < 1/2 then ⌊x⌋
  else if 1/2 < x - ⌊x⌋ then ⌊x⌋ + 1
  else if ⌊x⌋ % 2 = 0 then ⌊x⌋ else ⌊x⌋ + 1

/-- Binary exponent of a positive rational: the unique `e` with
`2^e ≤ q < 2^(e+1)` (established in `qexp_spec`). -/
def qexp (q : ℚ) : ℤ :=
  let sz : ℤ := (Nat.log2 q.num.toNat : ℤ) - (Nat.log2 q.den : ℤ)
  if (2 : ℚ) ^ sz ≤ q then sz else sz - 1

/-- Rounding of a positive rational to 53 significant bits:
scale into `[2^52, 2^53)`, round to the nearest integer (ties to even),
scale back.  This is IEEE-754 binary64 round-to-nearest-even on the
normal range. -/
def floatRoundPos (q : ℚ) : ℚ :=
  (rne (q * 2 ^ ((52 : ℤ) - qexp q)) : ℚ) * 2 ^ (qexp q - (52 : ℤ))

/-- IEEE-754 binary64 rounding of an exact rational value. -/
def floatRound (q : ℚ) : ℚ :=
  if q < 0 then -floatRoundPos (-q) else if q = 0 then 0 else floatRoundPos q

/-- The binary64 value of a Python `int` (exact below `2^53`). -/
def floatOfInt (n : ℤ) : ℚ := floatRound (n : ℚ)

/-- Python's `/` (true division): the correctly rounded binary64 quotient. -/
def pydiv (x y : ℚ) : ℚ := floatRound (x / y)

/-- Python's `*` on binary64 operands: the correctly rounded product. -/
def pymul (x y : ℚ) : ℚ := floatRound (x * y)

/-- Python's `+` on binary64 operands: the correctly rounded sum. -/
def pyadd (x y : ℚ) : ℚ := floatRound (x + y)

/-- Python's `-` on binary64 operands: the correctly rounded difference. -/
def pysub (x y : ℚ) : ℚ := floatRound (x - y)

/-- Python's `int(·)` on a binary64 value: truncation toward zero. -/
def pyint (q : ℚ) : ℤ := if q < 0 then -⌊-q⌋ else ⌊q⌋

/-- The binary64 value written `n/den` as a decimal literal in the source
(e.g. `pylit 9 10` is the Python literal `0.9`). -/
def pylit (n den : ℕ) : ℚ := floatRound ((n : ℚ) / (den : ℚ))

/-- Python's `random.uniform(a, b)`, which computes `a + (b-a) * d` in
binary64 where `d` is the `random.random()` draw. -/
def pyuniform (a b d : ℚ) : ℚ := pyadd a (pymul (pysub b a) d)

/-- Python's `sum(...)` over binary64 values: a left fold of rounded
additions starting from `0`. -/
def floatSum (l : List ℚ) : ℚ := l.foldl pyadd 0

/-! ## Data model (`HistoryEntry`, `AccessToken`, `Clinic`, the engine) -/

/-- `HistoryEntry` of the source: an immutable record of a shared
observation.  `timestamp` is the `time.time()` reading at creation. -/
structure HistoryEntry where
  patient_id : String
  author_clinic_id : String
  summary : String
  quality_score : ℚ
  timestamp : ℚ
  stake : ℤ := 0
  redacted_author : Bool := true

/-- `AccessToken` of the source: a capability bound to one patient and one
issuing clinic, valid until `expires_at`. -/
structure AccessToken where
  patient_id : String
  issued_to_clinic_id : String
  expires_at : ℚ
  encounter_bound : Bool := true

/-- `Clinic` of the source. -/
structure Clinic where
  clinic_id : String
  credits : ℤ
  reputation : ℚ := 1
  opted_in : Bool := true
  share_propensity : ℚ := pylit 7 10
  free_ride : Bool := false
  low_quality : Bool := false
  last_round_contribution : ℤ := 0

/-- A raised Python exception of the mechanism. -/
inductive PyErr where
  | keyError (key : String)

/-- `ReciprocityEngine` of the source: configuration plus all mutable
economic state.  Defaults are the constructor defaults of the source. -/
structure ReciprocityEngine where
  read_cost : ℤ := 3
  publish_reward : ℤ := 4
  publish_stake : ℤ := 2
  decay_per_round : ℤ := 1
  min_credits_to_read : ℤ := 3
  dispute_probability : ℚ := pylit 12 100
  dispute_threshold : ℚ := pylit 45 100
  slash_amount : ℤ := 6
  match_pool_rate : ℚ := pylit 5 10
  clinics : List Clinic := []
  patient_histories : List (String × List HistoryEntry) := []
  access_log : List (ℚ × String × String) := []
  pool_balance : ℤ := 0

namespace ReciprocityEngine

/-- Lookup `self.clinics[clinic_id]` (`none` models a `KeyError`). -/
def findClinic (e : ReciprocityEngine) (cid : String) : Option Clinic :=
  e.clinics.find? (fun c => c.clinic_id == cid)

/-- Mutation of the clinic stored under `cid` (dict update in place). -/
def updateClinic (e : ReciprocityEngine) (cid : String) (f : Clinic → Clinic) :
    ReciprocityEngine :=
  { e with clinics := e.clinics.map (fun c => if c.clinic_id == cid then f c else c) }

/-- `add_clinic`: `self.clinics[clinic.clinic_id] = clinic` on an
insertion-ordered dict. -/
def add_clinic (e : ReciprocityEngine) (clinic : Clinic) : ReciprocityEngine :=
  if e.clinics.any (fun c => c.clinic_id == clinic.clinic_id) then
    { e with clinics :=
        e.clinics.map (fun c => if c.clinic_id == clinic.clinic_id then clinic else c) }
  else
    { e with clinics := e.clinics ++ [clinic] }

/-- `issue_patient_token`: a fresh token expiring `ttl_seconds` after the
current clock reading `now`; no authorization check. -/
def issue_patient_token (_e : ReciprocityEngine) (patient_id clinic_id : String)
    (ttl_seconds : ℤ) (now : ℚ) : AccessToken :=
  { patient_id := patient_id,
    issued_to_clinic_id := clinic_id,
    expires_at := now + (ttl_seconds : ℚ),
    encounter_bound := true }

/-- `can_read`: the pure eligibility predicate.  `now` is the `time.time()`
reading of the expiry check.  The clinic lookup on the first line raises
`KeyError` for an unregistered id. -/
def can_read (e : ReciprocityEngine) (clinic_id : String) (token : AccessToken)
    (now : ℚ) : Except PyErr Bool :=
  match e.findClinic clinic_id with
  | none => .error (.keyError clinic_id)
  | some clinic =>
    if !clinic.opted_in then .ok false
    else if token.issued_to_clinic_id ≠ clinic_id then .ok false
    else if token.expires_at < now then .ok false
    else if clinic.credits < e.min_credits_to_read then .ok false
    else .ok true

/-- The stored history list of a patient: `self.patient_histories.get(pid, [])`. -/
def historyOf (e : ReciprocityEngine) (pid : String) : List HistoryEntry :=
  ((e.patient_histories.find? (fun p => p.1 == pid)).map (fun p => p.2)).getD []

/-- The state mutations of a successful `read_history` (the three statements
after the balance check in the source): debit the read cost, route
`int(read_cost * match_pool_rate)` to the pool, append an access-log entry. -/
def readSuccess (e : ReciprocityEngine) (clinic_id : String) (token : AccessToken)
    (now_log : ℚ) : ReciprocityEngine :=
  let e1 := e.updateClinic clinic_id
    (fun c => { c with credits := c.credits - e.read_cost })
  let e2 := { e1 with pool_balance :=
    e1.pool_balance + pyint (pymul (floatOfInt e.read_cost) e.match_pool_rate) }
  { e2 with access_log := e2.access_log ++ [(now_log, clinic_id, token.patient_id)] }

/-- `read_history`.  `now_check` is the `time.time()` reading inside
`can_read`, `now_log` the one of the access-log entry.  On success it
performs the `readSuccess` mutations and returns (a copy of) the patient's
history. -/
def read_history (e : ReciprocityEngine) (clinic_id : String) (token : AccessToken)
    (now_check now_log : ℚ) :
    Except PyErr (List HistoryEntry) × ReciprocityEngine :=
  match e.can_read clinic_id token now_check with
  | .error err => (.error err, e)
  | .ok false => (.ok [], e)
  | .ok true =>
    match e.findClinic clinic_id with
    | none => (.error (.keyError clinic_id), e)
    | some clinic =>
      if clinic.credits < e.read_cost then (.ok [], e)
      else (.ok (e.historyOf token.patient_id), e.readSuccess clinic_id token now_log)

/-- `self.patient_histories.setdefault(pid, []).append(entry)`. -/
def appendHistory (hs : List (String × List HistoryEntry)) (pid : String)
    (entry : HistoryEntry) : List (String × List HistoryEntry) :=
  if hs.any (fun p => p.1 == pid) then
    hs.map (fun p => if p.1 == pid then (p.1, p.2 ++ [entry]) else p)
  else hs ++ [(pid, [entry])]

/-- The internal dispute check `_maybe_dispute`: a low-quality entry costs
its author `min(slash_amount, credits)` credits and multiplies the author's
reputation by the binary64 literal `0.9`. -/
def maybe_dispute (e : ReciprocityEngine) (entry : HistoryEntry) :
    Except PyErr Unit × ReciprocityEngine :=
  if entry.quality_score < e.dispute_threshold then
    match e.findClinic entry.author_clinic_id with
    | none => (.error (.keyError entry.author_clinic_id), e)
    | some author =>
      let penalty := min e.slash_amount author.credits
      (.ok (), e.updateClinic entry.author_clinic_id (fun c =>
        { c with credits := c.credits - penalty,
                 reputation := pymul c.reputation (pylit 9 10) }))
  else (.ok (), e)

/-- The staked copy of a published entry: `entry.stake = self.publish_stake`
(the source mutates the entry in place before appending it). -/
def stakedEntry (e : ReciprocityEngine) (entry : HistoryEntry) : HistoryEntry :=
  { entry with stake := e.publish_stake }

/-- The state mutations of a successful `publish_history` before the dispute
gate: debit the stake, credit the reward, bump the contribution counter,
append the staked entry to the patient's history. -/
def publishSuccess (e : ReciprocityEngine) (clinic_id : String)
    (entry : HistoryEntry) : ReciprocityEngine :=
  let e1 := e.updateClinic clinic_id (fun c =>
    { c with credits := c.credits - e.publish_stake + e.publish_reward,
             last_round_contribution := c.last_round_contribution + 1 })
  { e1 with patient_histories :=
      appendHistory e1.patient_histories (e.stakedEntry entry).patient_id (e.stakedEntry entry) }

/-- `publish_history`.  `dispute_draw` is the `random.random()` value of the
dispute gate; it is consumed only when the eligibility checks pass.  The
author of a disputed entry is looked up by `entry.author_clinic_id`, so a
foreign author id can raise `KeyError` after the state mutations. -/
def publish_history (e : ReciprocityEngine) (clinic_id : String)
    (entry : HistoryEntry) (dispute_draw : ℚ) :
    Except PyErr Bool × ReciprocityEngine :=
  match e.findClinic clinic_id with
  | none => (.error (.keyError clinic_id), e)
  | some clinic =>
    if !clinic.opted_in then (.ok false, e)
    else if clinic.credits < e.publish_stake then (.ok false, e)
    else
      let e2 := e.publishSuccess clinic_id entry
      if dispute_draw < e.dispute_probability then
        let r := e2.maybe_dispute (e.stakedEntry entry)
        (r.1.map (fun _ => true), r.2)
      else (.ok true, e2)

/-- `decay_credits`: every opted-in clinic with a positive balance loses
`decay_per_round` credits, floored at zero. -/
def decay_credits (e : ReciprocityEngine) : ReciprocityEngine :=
  { e with clinics := e.clinics.map (fun c =>
      if c.opted_in && decide (0 < c.credits) then
        { c with credits := max 0 (c.credits - e.decay_per_round) }
      else c) }

/-- The credited pool share of one contributor:
`int(pool_balance * (last_round_contribution / total_contribs))`,
binary64 arithmetic throughout. -/
def poolShare (pool contribution total : ℤ) : ℤ :=
  pyint (pymul (floatOfInt pool) (pydiv (contribution : ℚ) (total : ℚ)))

/-- `distribute_pool`: with no contributor or an empty pool, only the
contribution counters are reset; otherwise contributors are credited their
shares, the pool is zeroed and the counters are reset. -/
def distribute_pool (e : ReciprocityEngine) : ReciprocityEngine :=
  let contributors := e.clinics.filter (fun c => decide (0 < c.last_round_contribution))
  if contributors.isEmpty || decide (e.pool_balance ≤ 0) then
    { e with clinics := e.clinics.map (fun c => { c with last_round_contribution := 0 }) }
  else
    let total_contribs := (contributors.map (fun c => c.last_round_contribution)).sum
    { e with
      pool_balance := 0,
      clinics := e.clinics.map (fun c =>
        if decide (0 < c.last_round_contribution) then
          { c with
            credits :=
              c.credits + poolShare e.pool_balance c.last_round_contribution total_contribs,
            last_round_contribution := 0 }
        else { c with last_round_contribution := 0 }) }

/-- `opt_in_rate`: the fraction of registered clinics currently opted in
(`0.0` with no clinics); an int/int true division, hence a binary64 value. -/
def opt_in_rate (e : ReciprocityEngine) : ℚ :=
  if e.clinics.isEmpty then 0
  else pydiv ((e.clinics.filter (fun c => c.opted_in)).length : ℚ) (e.clinics.length : ℚ)

end ReciprocityEngine

/-! ## Bounds on the binary64 rounding -/

/-- One unit in the last place of the 53-bit significand, relatively:
rounding a positive rational perturbs it by at most this fraction. -/
def ulp : ℚ := 1 / 2 ^ 53

theorem rne_bounds (x : ℚ) : x - 1/2 ≤ (rne x : ℚ) ∧ (rne x : ℚ) ≤ x + 1/2 := by
  have hfl : ((⌊x⌋ : ℤ) : ℚ) ≤ x := Int.floor_le x
  have hfl' : x - 1 < ((⌊x⌋ : ℤ) : ℚ) := Int.sub_one_lt_floor x
  unfold rne
  split_ifs with h1 h2 h3 <;> constructor <;> push_cast <;> linarith

theorem two_zpow_pos (z : ℤ) : (0 : ℚ) < 2 ^ z :=
  zpow_pos (by norm_num) z

theorem qexp_spec (q : ℚ) (hq : 0 < q) :
    (2 : ℚ) ^ qexp q ≤ q ∧ q < 2 ^ (qexp q + 1) := by
  have hnum : 0 < q.num := Rat.num_pos.mpr hq
  have hbpos : (0 : ℚ) < (q.den : ℚ) := by exact_mod_cast q.den_pos
  have hqeq : ((q.num : ℚ)) / ((q.den : ℚ)) = q := Rat.num_div_den q
  have ha0 : q.num.toNat ≠ 0 := by omega
  have hb0 : q.den ≠ 0 := q.den_nz
  have hcast : ((q.num.toNat : ℤ) : ℚ) = (q.num : ℚ) := by
    rw [Int.toNat_of_nonneg hnum.le]
  have hnpow : ∀ n : ℕ, (2 : ℚ) ^ (n : ℤ) = ((2 ^ n : ℕ) : ℚ) := by
    intro n
    rw [zpow_natCast]
    push_cast
    ring
  have hA1 : (2 : ℚ) ^ ((Nat.log2 q.num.toNat : ℕ) : ℤ) ≤ (q.num : ℚ) := by
    rw [hnpow, ← hcast]
    exact_mod_cast Nat.log2_self_le ha0
  have hA2 : (q.num : ℚ) < 2 ^ (((Nat.log2 q.num.toNat : ℕ) : ℤ) + 1) := by
    have h1 : (((Nat.log2 q.num.toNat : ℕ) : ℤ) + 1) = (((Nat.log2 q.num.toNat + 1 : ℕ)) : ℤ) := by
      push_cast
      ring
    rw [h1, hnpow, ← hcast]
    exact_mod_cast Nat.lt_log2_self
  have hB1 : (2 : ℚ) ^ ((Nat.log2 q.den : ℕ) : ℤ) ≤ (q.den : ℚ) := by
    rw [hnpow]
    exact_mod_cast Nat.log2_self_le hb0
  have hB2 : (q.den : ℚ) < 2 ^ (((Nat.log2 q.den : ℕ) : ℤ) + 1) := by
    have h1 : (((Nat.log2 q.den : ℕ) : ℤ) + 1) = (((Nat.log2 q.den + 1 : ℕ)) : ℤ) := by
      push_cast
      ring
    rw [h1, hnpow]
    exact_mod_cast Nat.lt_log2_self
  set La : ℤ := ((Nat.log2 q.num.toNat : ℕ) : ℤ) with hLa
  set Lb : ℤ := ((Nat.log2 q.den : ℕ) : ℤ) with hLb
  have hUp : q < 2 ^ (La - Lb + 1) := by
    rw [← hqeq, div_lt_iff₀ hbpos]
    calc (q.num : ℚ) < 2 ^ (La + 1) := hA2
      _ = 2 ^ (La - Lb + 1) * 2 ^ Lb := by
          rw [← zpow_add₀ (two_ne_zero (α := ℚ))]
          congr 1
          ring
      _ ≤ 2 ^ (La - Lb + 1) * (q.den : ℚ) :=
          mul_le_mul_of_nonneg_left hB1 (two_zpow_pos _).le
  have hLo : (2 : ℚ) ^ (La - Lb - 1) ≤ q := by
    rw [← hqeq, le_div_iff₀ hbpos]
    have hchain : (2 : ℚ) ^ (La - Lb - 1) * (q.den : ℚ) < (q.num : ℚ) := by
      calc (2 : ℚ) ^ (La - Lb - 1) * (q.den : ℚ)
          < 2 ^ (La - Lb - 1) * 2 ^ (Lb + 1) :=
            mul_lt_mul_of_pos_left hB2 (two_zpow_pos _)
        _ = 2 ^ La := by
            rw [← zpow_add₀ (two_ne_zero (α := ℚ))]
            congr 1
            ring
        _ ≤ (q.num : ℚ) := hA1
    exact hchain.le
  have hqx : qexp q = if (2 : ℚ) ^ (La - Lb) ≤ q then La - Lb else La - Lb - 1 := rfl
  rw [hqx]
  split_ifs with h
  · exact ⟨h, hUp⟩
  · refine ⟨hLo, ?_⟩
    have hlt : q < (2 : ℚ) ^ (La - Lb) := lt_of_not_le h
    have harith : La - Lb - 1 + 1 = La - Lb := by ring
    rw [harith]
    exact hlt

theorem floatRoundPos_err (q : ℚ) (hq : 0 < q) :
    |floatRoundPos q - q| ≤ q * ulp := by
  obtain ⟨h1, h2⟩ := qexp_spec q hq
  set ex := qexp q with hex
  set s : ℚ := q * 2 ^ ((52 : ℤ) - ex) with hs
  set n : ℚ := (rne s : ℚ) with hn
  have hqs : s * 2 ^ (ex - (52 : ℤ)) = q := by
    rw [hs, mul_assoc, ← zpow_add₀ (two_ne_zero (α := ℚ))]
    norm_num
  have herr : |n - s| ≤ 1/2 := by
    obtain ⟨hl, hr⟩ := rne_bounds s
    rw [abs_le]
    constructor <;> [linarith; linarith]
  have hfl : floatRoundPos q = n * 2 ^ (ex - (52 : ℤ)) := rfl
  have hdiff : (n - s) * 2 ^ (ex - (52 : ℤ)) = floatRoundPos q - q := by
    rw [sub_mul, hqs, hfl]
  have hmain : |floatRoundPos q - q| = |n - s| * 2 ^ (ex - (52 : ℤ)) := by
    rw [← hdiff, abs_mul, abs_of_pos (two_zpow_pos _)]
  rw [hmain]
  have hstep : |n - s| * 2 ^ (ex - (52 : ℤ)) ≤ (1/2) * 2 ^ (ex - (52 : ℤ)) :=
    mul_le_mul_of_nonneg_right herr (two_zpow_pos _).le
  refine hstep.trans ?_
  have hhalf : (1/2 : ℚ) * 2 ^ (ex - (52 : ℤ)) = 2 ^ ex * 2 ^ (-53 : ℤ) := by
    have h12 : (1/2 : ℚ) = 2 ^ (-1 : ℤ) := by norm_num
    rw [h12, ← zpow_add₀ (two_ne_zero (α := ℚ)), ← zpow_add₀ (two_ne_zero (α := ℚ))]
    congr 1
    ring
  rw [hhalf]
  have hulp : (2 : ℚ) ^ (-53 : ℤ) = ulp := by
    rw [zpow_neg]
    norm_num [ulp]
  rw [hulp]
  exact mul_le_mul_of_nonneg_right h1 (by unfold ulp; positivity)

theorem floatRoundPos_le (q : ℚ) (hq : 0 < q) : floatRoundPos q ≤ q * (1 + ulp) := by
  have h := floatRoundPos_err q hq
  rw [abs_le] at h
  nlinarith [h.2]

theorem floatRoundPos_ge (q : ℚ) (hq : 0 < q) : q * (1 - ulp) ≤ floatRoundPos q := by
  have h := floatRoundPos_err q hq
  rw [abs_le] at h
  nlinarith [h.1]

theorem floatRoundPos_pos (q : ℚ) (hq : 0 < q) : 0 < floatRoundPos q := by
  have h := floatRoundPos_ge q hq
  have hu : (0 : ℚ) < 1 - ulp := by unfold ulp; norm_num
  nlinarith

theorem floatRound_of_pos (q : ℚ) (hq : 0 < q) : floatRound q = floatRoundPos q := by
  unfold floatRound
  rw [if_neg (by linarith), if_neg (by linarith)]

theorem floatRound_le (q : ℚ) (hq : 0 < q) : floatRound q ≤ q * (1 + ulp) := by
  rw [floatRound_of_pos q hq]
  exact floatRoundPos_le q hq

theorem floatRound_ge (q : ℚ) (hq : 0 < q) : q * (1 - ulp) ≤ floatRound q := by
  rw [floatRound_of_pos q hq]
  exact floatRoundPos_ge q hq

theorem floatRound_pos (q : ℚ) (hq : 0 < q) : 0 < floatRound q := by
  rw [floatRound_of_pos q hq]
  exact floatRoundPos_pos q hq

theorem floatRound_nonneg (q : ℚ) (hq : 0 ≤ q) : 0 ≤ floatRound q := by
  rcases lt_or_eq_of_le hq with h | h
  · exact (floatRound_pos q h).le
  · rw [← h]
    unfold floatRound
    norm_num

theorem qexp_unique (q : ℚ) (ex : ℤ) (hq : 0 < q)
    (hlo : (2:ℚ) ^ ex ≤ q) (hhi : q < 2 ^ (ex + 1)) : qexp q = ex := by
  obtain ⟨h1, h2⟩ := qexp_spec q hq
  by_contra hne
  rcases lt_or_gt_of_ne hne with h | h
  · have hle : (2:ℚ) ^ (qexp q + 1) ≤ 2 ^ ex :=
      zpow_le_zpow_right₀ (by norm_num) (by omega)
    linarith
  · have hle : (2:ℚ) ^ (ex + 1) ≤ 2 ^ (qexp q) :=
      zpow_le_zpow_right₀ (by norm_num) (by omega)
    linarith

theorem rne_eq_low (x : ℚ) (n : ℤ) (hn : ⌊x⌋ = n) (h : x - n < 1/2) : rne x = n := by
  unfold rne
  rw [hn, if_pos h]

theorem rne_eq_high (x : ℚ) (n : ℤ) (hn : ⌊x⌋ = n) (h : 1/2 < x - n) : rne x = n + 1 := by
  unfold rne
  rw [hn, if_neg (by linarith), if_pos h]

/-- Evaluation scheme for `floatRound` at a concrete positive rational:
supply the binary exponent `ex`, the scaled value `s`, the rounded
significand `m` and the result `r`; every side condition is a rational
(in)equality that `norm_num` settles. -/
theorem floatRound_eq_pos (q : ℚ) (ex : ℤ) (s : ℚ) (m : ℤ) (r : ℚ)
    (hq : 0 < q) (hlo : (2:ℚ) ^ ex ≤ q) (hhi : q < 2 ^ (ex + 1))
    (hs : q * 2 ^ ((52 : ℤ) - ex) = s) (hm : rne s = m)
    (hr : (m : ℚ) * 2 ^ (ex - (52 : ℤ)) = r) :
    floatRound q = r := by
  rw [floatRound_of_pos q hq]
  unfold floatRoundPos
  rw [qexp_unique q ex hq hlo hhi, hs, hm, hr]

/-! ## C1: state after `distribute_pool` -/

/-- Unfolding of `distribute_pool` with its `let`s inlined. -/
theorem distribute_pool_eq (e : ReciprocityEngine) :
    e.distribute_pool =
      if (e.clinics.filter (fun c => decide (0 < c.last_round_contribution))).isEmpty
          || decide (e.pool_balance ≤ 0) then
        { e with clinics := e.clinics.map (fun c => { c with last_round_contribution := 0 }) }
      else
        { e with
          pool_balance := 0,
          clinics := e.clinics.map (fun c =>
            if decide (0 < c.last_round_contribution) then
              { c with
                credits := c.credits + ReciprocityEngine.poolShare e.pool_balance
                  c.last_round_contribution
                  (((e.clinics.filter (fun c => decide (0 < c.last_round_contribution))).map
                    (fun c => c.last_round_contribution)).sum),
                last_round_contribution := 0 }
            else { c with last_round_contribution := 0 }) } := rfl

/-- C1 (amended): after every call to `distribute_pool()` every registered
clinic's `last_round_contribution` is `0`; the pool balance is `0` afterwards
whenever some clinic contributed this round and the pool was positive, but
with a positive pool and no contributor the pool balance is left unchanged
(carried over), and with a non-positive pool it is likewise unchanged. -/
theorem distribute_pool_after (e : ReciprocityEngine) :
    (∀ c ∈ e.distribute_pool.clinics, c.last_round_contribution = 0) ∧
    ((∃ c ∈ e.clinics, 0 < c.last_round_contribution) → 0 < e.pool_balance →
      e.distribute_pool.pool_balance = 0) ∧
    ((∀ c ∈ e.clinics, c.last_round_contribution ≤ 0) ∨ e.pool_balance ≤ 0 →
      e.distribute_pool.pool_balance = e.pool_balance) := by
  rw [distribute_pool_eq]
  split_ifs with hif
  · simp only [Bool.or_eq_true, List.isEmpty_iff, decide_eq_true_eq] at hif
    refine ⟨?_, ?_, ?_⟩
    · intro c hc
      simp only [List.mem_map] at hc
      obtain ⟨x, _, rfl⟩ := hc
      rfl
    · rintro ⟨c, hc, hpos⟩ hp
      exfalso
      rcases hif with hnil | hple
      · have hmem : c ∈ e.clinics.filter (fun c => decide (0 < c.last_round_contribution)) :=
          List.mem_filter.mpr ⟨hc, by simpa using hpos⟩
        rw [hnil] at hmem
        exact absurd hmem (List.not_mem_nil c)
      · omega
    · intro _
      rfl
  · simp only [Bool.or_eq_true, List.isEmpty_iff, decide_eq_true_eq, not_or] at hif
    obtain ⟨hnil, hple⟩ := hif
    refine ⟨?_, ?_, ?_⟩
    · intro c hc
      simp only [List.mem_map] at hc
      obtain ⟨x, _, rfl⟩ := hc
      split_ifs <;> rfl
    · intro _ _
      rfl
    · rintro (hall | hp)
      · exfalso
        apply hnil
        apply List.filter_eq_nil_iff.mpr
        intro c hc
        simpa using (hall c hc)
      · omega

/-- Witness for `distribute_pool_after` at a concrete engine: one clinic
contributed 2 and the pool holds 8, so afterwards the pool is 0 and the
counter is reset. -/
theorem distribute_pool_after_witness :
    (ReciprocityEngine.distribute_pool
      { clinics := [{ clinic_id := "A", credits := 0, last_round_contribution := 2 }],
        pool_balance := 8 }).pool_balance = 0 ∧
    ∀ c ∈ (ReciprocityEngine.distribute_pool
      { clinics := [{ clinic_id := "A", credits := 0, last_round_contribution := 2 }],
        pool_balance := 8 }).clinics, c.last_round_contribution = 0 := by
  have h := distribute_pool_after
    { clinics := [{ clinic_id := "A", credits := 0, last_round_contribution := 2 }],
      pool_balance := 8 }
  refine ⟨h.2.1 ⟨_, List.mem_singleton.mpr rfl, by decide⟩ (by decide), h.1⟩

/-- C1 fails as stated: in an engine with one registered clinic, no
contribution this round and a pool balance of `5`, `distribute_pool()`
leaves the pool balance at `5`, not `0`. -/
theorem distribute_pool_counterexample :
    (ReciprocityEngine.distribute_pool
      { clinics := [{ clinic_id := "A", credits := 0 }], pool_balance := 5 }).pool_balance = 5 ∧
    (5 : ℤ) ≠ 0 := by
  constructor
  · rfl
  · decide

/-! ## C2: `decay_credits` -/

/-- C2 (amended): for every OPTED-IN registered clinic with a non-negative
balance (and a non-negative decay amount), the balance after `decay_credits()`
is `max 0 (balance - decay_per_round)`; opted-out clinics are skipped and
keep their balance. -/
theorem decay_credits_balance (e : ReciprocityEngine) (i : ℕ)
    (h1 : i < e.clinics.length) (h2 : i < e.decay_credits.clinics.length)
    (hopt : (e.clinics.get ⟨i, h1⟩).opted_in = true)
    (hnn : 0 ≤ (e.clinics.get ⟨i, h1⟩).credits)
    (hd : 0 ≤ e.decay_per_round) :
    (e.decay_credits.clinics.get ⟨i, h2⟩).credits =
      max 0 ((e.clinics.get ⟨i, h1⟩).credits - e.decay_per_round) := by
  have hmap : e.decay_credits.clinics.get ⟨i, h2⟩ =
      (fun c => if c.opted_in && decide (0 < c.credits) then
        { c with credits := max 0 (c.credits - e.decay_per_round) }
      else c) (e.clinics.get ⟨i, h1⟩) := by
    simp [ReciprocityEngine.decay_credits]
  rw [hmap]
  set c := e.clinics.get ⟨i, h1⟩ with hc
  by_cases hpos : 0 < c.credits
  · simp [hopt, hpos]
  · have hz : c.credits = 0 := le_antisymm (by omega) hnn
    have hfalse : (c.opted_in && decide (0 < c.credits)) = false := by simp [hpos]
    simp only [hfalse, Bool.false_eq_true, if_false]
    rw [hz, max_eq_left (by omega)]

/-- Witness for `decay_credits_balance` at a concrete engine: one opted-in
clinic with 5 credits, decay 1, ends with `max 0 (5 - 1) = 4` credits. -/
theorem decay_credits_balance_witness :
    ((ReciprocityEngine.decay_credits
        { clinics := [{ clinic_id := "A", credits := 5 }] }).clinics.get ⟨0, by decide⟩).credits =
      max 0 (5 - 1) :=
  decay_credits_balance { clinics := [{ clinic_id := "A", credits := 5 }] } 0
    (by decide) (by decide) (by decide) (by decide) (by decide)

/-- C2 fails as stated for an opted-out clinic: with `decay_per_round = 1`,
an opted-out clinic holding `5` credits still holds `5` after
`decay_credits()`, while the claimed formula gives `max 0 (5 - 1) = 4`. -/
theorem decay_credits_counterexample :
    ((ReciprocityEngine.decay_credits
        { clinics := [{ clinic_id := "A", credits := 5, opted_in := false }] }).clinics.map
      Clinic.credits = [5]) ∧
    (5 : ℤ) ≠ max 0 (5 - 1) := by
  constructor
  · rfl
  · decide

/-! ## C4: raising behaviour of the operations -/

/-- A clinic id is registered when some stored clinic carries it. -/
def ReciprocityEngine.registered (e : ReciprocityEngine) (cid : String) : Prop :=
  ∃ c ∈ e.clinics, c.clinic_id = cid

theorem findClinic_isSome_iff (e : ReciprocityEngine) (cid : String) :
    (e.findClinic cid).isSome = true ↔ e.registered cid := by
  unfold ReciprocityEngine.findClinic ReciprocityEngine.registered
  rw [List.find?_isSome]
  simp

theorem registered_congr (e₁ e₂ : ReciprocityEngine) (h : e₁.clinics = e₂.clinics)
    (cid : String) : e₁.registered cid ↔ e₂.registered cid := by
  unfold ReciprocityEngine.registered
  rw [h]

theorem registered_updateClinic (e : ReciprocityEngine) (cid aid : String)
    (f : Clinic → Clinic) (hf : ∀ c, (f c).clinic_id = c.clinic_id) :
    (e.updateClinic cid f).registered aid ↔ e.registered aid := by
  unfold ReciprocityEngine.updateClinic ReciprocityEngine.registered
  simp only [List.mem_map]
  constructor
  · rintro ⟨c, ⟨x, hx, rfl⟩, hcid⟩
    refine ⟨x, hx, ?_⟩
    by_cases hx2 : (x.clinic_id == cid) = true
    · rw [if_pos hx2, hf] at hcid
      exact hcid
    · rwa [if_neg hx2] at hcid
  · rintro ⟨x, hx, hxid⟩
    refine ⟨_, ⟨x, hx, rfl⟩, ?_⟩
    by_cases hx2 : (x.clinic_id == cid) = true
    · rw [if_pos hx2, hf]
      exact hxid
    · rwa [if_neg hx2]

/-- A dispute check on a registered author id never raises. -/
theorem maybe_dispute_fst (e : ReciprocityEngine) (entry : HistoryEntry)
    (h : e.registered entry.author_clinic_id) :
    (e.maybe_dispute entry).1 = .ok () := by
  unfold ReciprocityEngine.maybe_dispute
  split_ifs with hq
  · obtain ⟨a, ha⟩ := Option.isSome_iff_exists.mp ((findClinic_isSome_iff _ _).mpr h)
    rw [ha]
  · rfl

theorem can_read_eq (e : ReciprocityEngine) (cid : String) (tok : AccessToken)
    (now : ℚ) (c : Clinic) (hc : e.findClinic cid = some c) :
    e.can_read cid tok now =
      (if !c.opted_in then .ok false
       else if tok.issued_to_clinic_id ≠ cid then .ok false
       else if tok.expires_at < now then .ok false
       else if c.credits < e.min_credits_to_read then .ok false
       else .ok true) := by
  unfold ReciprocityEngine.can_read
  rw [hc]

theorem read_history_canFalse (e : ReciprocityEngine) (cid : String) (tok : AccessToken)
    (nc nl : ℚ) (h : e.can_read cid tok nc = .ok false) :
    e.read_history cid tok nc nl = (.ok [], e) := by
  unfold ReciprocityEngine.read_history
  rw [h]

theorem read_history_canTrue (e : ReciprocityEngine) (cid : String) (tok : AccessToken)
    (nc nl : ℚ) (c : Clinic) (h : e.can_read cid tok nc = .ok true)
    (hc : e.findClinic cid = some c) :
    e.read_history cid tok nc nl =
      if c.credits < e.read_cost then (.ok [], e)
      else (.ok (e.historyOf tok.patient_id), e.readSuccess cid tok nl) := by
  unfold ReciprocityEngine.read_history
  rw [h, hc]

theorem publish_history_eq (e : ReciprocityEngine) (cid : String) (entry : HistoryEntry)
    (draw : ℚ) (c : Clinic) (hc : e.findClinic cid = some c) :
    e.publish_history cid entry draw =
      (if !c.opted_in then (.ok false, e)
       else if c.credits < e.publish_stake then (.ok false, e)
       else if draw < e.dispute_probability then
         (((e.publishSuccess cid entry).maybe_dispute (e.stakedEntry entry)).1.map
            (fun _ => true),
          ((e.publishSuccess cid entry).maybe_dispute (e.stakedEntry entry)).2)
       else (.ok true, e.publishSuccess cid entry)) := by
  unfold ReciprocityEngine.publish_history
  rw [hc]

theorem registered_publishSuccess (e : ReciprocityEngine) (cid aid : String)
    (entry : HistoryEntry) :
    (e.publishSuccess cid entry).registered aid ↔ e.registered aid := by
  refine (registered_congr _ (e.updateClinic cid (fun c =>
    { c with credits := c.credits - e.publish_stake + e.publish_reward,
             last_round_contribution := c.last_round_contribution + 1 })) rfl _).trans ?_
  exact registered_updateClinic e cid aid _ (fun c => rfl)

/-- C4 (amended): `decay_credits`, `distribute_pool` and `opt_in_rate` are
total in the embedding (they cannot raise), and `can_read`, `read_history`
and `publish_history` return an ordinary value — never a `KeyError` —
whenever the clinic id they are called with (and, for a publish, the
entry's author id) is registered. -/
theorem ops_no_raise_for_registered (e : ReciprocityEngine) (cid : String)
    (tok : AccessToken) (nc nl : ℚ) (entry : HistoryEntry) (draw : ℚ)
    (hcid : e.registered cid) (hauthor : e.registered entry.author_clinic_id) :
    (∃ b, e.can_read cid tok nc = .ok b) ∧
    (∃ l, (e.read_history cid tok nc nl).1 = .ok l) ∧
    (∃ b, (e.publish_history cid entry draw).1 = .ok b) := by
  obtain ⟨c, hc⟩ := Option.isSome_iff_exists.mp ((findClinic_isSome_iff e cid).mpr hcid)
  have hcr : ∃ b, e.can_read cid tok nc = .ok b := by
    rw [can_read_eq e cid tok nc c hc]
    split_ifs <;> exact ⟨_, rfl⟩
  refine ⟨hcr, ?_, ?_⟩
  · obtain ⟨b, hb⟩ := hcr
    cases b
    · rw [read_history_canFalse e cid tok nc nl hb]
      exact ⟨[], rfl⟩
    · rw [read_history_canTrue e cid tok nc nl c hb hc]
      split_ifs
      · exact ⟨[], rfl⟩
      · exact ⟨_, rfl⟩
  · rw [publish_history_eq e cid entry draw c hc]
    split_ifs with h1 h2 h3
    · exact ⟨false, rfl⟩
    · exact ⟨false, rfl⟩
    · dsimp only
      rw [maybe_dispute_fst]
      · exact ⟨true, rfl⟩
      · exact (registered_publishSuccess e cid entry.author_clinic_id entry).mpr hauthor
    · exact ⟨true, rfl⟩

/-- Witness for `ops_no_raise_for_registered` at a concrete engine with one
registered clinic. -/
theorem ops_no_raise_witness :
    (∃ b, ReciprocityEngine.can_read { clinics := [{ clinic_id := "A", credits := 5 }] } "A"
        { patient_id := "P", issued_to_clinic_id := "A", expires_at := 10 } 0 = .ok b) ∧
    (∃ l, (ReciprocityEngine.read_history { clinics := [{ clinic_id := "A", credits := 5 }] }
        "A" { patient_id := "P", issued_to_clinic_id := "A", expires_at := 10 } 0 0).1 = .ok l) ∧
    (∃ b, (ReciprocityEngine.publish_history { clinics := [{ clinic_id := "A", credits := 5 }] }
        "A" { patient_id := "P", author_clinic_id := "A", summary := "s", quality_score := 1,
              timestamp := 0 } 1).1 = .ok b) :=
  ops_no_raise_for_registered _ "A" _ 0 0 _ 1
    ⟨{ clinic_id := "A", credits := 5 }, List.mem_singleton.mpr rfl, rfl⟩
    ⟨{ clinic_id := "A", credits := 5 }, List.mem_singleton.mpr rfl, rfl⟩

/-- C4 fails as stated: called with an unregistered clinic id, `can_read`
(and hence `read_history`) raises a `KeyError` instead of returning an
ordinary value. -/
theorem ops_raise_counterexample :
    ReciprocityEngine.can_read { } "A"
      { patient_id := "P", issued_to_clinic_id := "A", expires_at := 0 } 0
      = .error (.keyError "A") ∧
    (ReciprocityEngine.read_history { } "A"
      { patient_id := "P", issued_to_clinic_id := "A", expires_at := 0 } 0 0).1
      = .error (.keyError "A") := by
  constructor
  · rfl
  · rfl

/-! ## C7: failing reads mutate nothing -/

/-- C7: when `can_read` is `false`, or the clinic's balance is below the read
cost, `read_history` returns an empty list and the engine state is exactly
unchanged; a state-mutating read therefore never happens with `can_read`
false. -/
theorem read_history_failure (e : ReciprocityEngine) (cid : String) (tok : AccessToken)
    (nc nl : ℚ) :
    (e.can_read cid tok nc = .ok false → e.read_history cid tok nc nl = (.ok [], e)) ∧
    (∀ c, e.findClinic cid = some c → e.can_read cid tok nc = .ok true →
      c.credits < e.read_cost → e.read_history cid tok nc nl = (.ok [], e)) := by
  constructor
  · intro h
    exact read_history_canFalse e cid tok nc nl h
  · intro c hc ht hlt
    rw [read_history_canTrue e cid tok nc nl c ht hc, if_pos hlt]

/-- Witness for `read_history_failure`: an opted-out clinic's read returns
`[]` and leaves the engine unchanged. -/
theorem read_history_failure_witness :
    ReciprocityEngine.read_history
      { clinics := [{ clinic_id := "A", credits := 5, opted_in := false }] } "A"
      { patient_id := "P", issued_to_clinic_id := "A", expires_at := 0 } 0 0 =
      (.ok [], { clinics := [{ clinic_id := "A", credits := 5, opted_in := false }] }) :=
  (read_history_failure
    { clinics := [{ clinic_id := "A", credits := 5, opted_in := false }] } "A"
    { patient_id := "P", issued_to_clinic_id := "A", expires_at := 0 } 0 0).1 rfl

/-! ## C8: failing publishes mutate nothing -/

/-- C8: when the clinic is opted out, or its balance is below the publish
stake, `publish_history` returns `false` and the engine state is exactly
unchanged (no debit, no reward, no contribution bump, no entry appended). -/
theorem publish_history_failure (e : ReciprocityEngine) (cid : String)
    (entry : HistoryEntry) (draw : ℚ) (c : Clinic) (hc : e.findClinic cid = some c)
    (h : c.opted_in = false ∨ c.credits < e.publish_stake) :
    e.publish_history cid entry draw = (.ok false, e) := by
  rw [publish_history_eq e cid entry draw c hc]
  rcases h with h | h
  · rw [if_pos (by simp [h])]
  · by_cases hop : c.opted_in
    · rw [if_neg (by simp [hop]), if_pos h]
    · rw [if_pos (by simp [hop])]

/-- Witness for `publish_history_failure`, the scenario of the claim: a
clinic with 1 credit and `publish_stake = 2` gets a failure return and the
whole engine (hence its balance of 1, and every patient history) is
unchanged. -/
theorem publish_history_failure_witness :
    ReciprocityEngine.publish_history { clinics := [{ clinic_id := "A", credits := 1 }] } "A"
      { patient_id := "P", author_clinic_id := "A", summary := "s", quality_score := 1,
        timestamp := 0 } 1 =
      (.ok false, { clinics := [{ clinic_id := "A", credits := 1 }] }) ∧
    ({ clinics := [{ clinic_id := "A", credits := 1 }] } :
      ReciprocityEngine).clinics.map Clinic.credits = [1] :=
  ⟨publish_history_failure { clinics := [{ clinic_id := "A", credits := 1 }] } "A"
    { patient_id := "P", author_clinic_id := "A", summary := "s", quality_score := 1,
      timestamp := 0 } 1 { clinic_id := "A", credits := 1 } rfl (Or.inr (by decide)), rfl⟩

/-! ## C5 and C9: per-operation state invariants -/

/-- Every engine operation that mutates state, plus the Round Driver's only
direct state write (the opt-out of a clinic). -/
inductive EngineOp where
  | read (cid : String) (tok : AccessToken) (now_check now_log : ℚ)
  | publish (cid : String) (entry : HistoryEntry) (draw : ℚ)
  | dispute (entry : HistoryEntry)
  | decay
  | distribute
  | optOut (cid : String)

/-- The engine state after one operation (for the fallible operations, the
state component of the embedding — the state the Python engine object holds
after the call, whether or not it raised). -/
def applyOp (op : EngineOp) (e : ReciprocityEngine) : ReciprocityEngine :=
  match op with
  | .read cid tok nc nl => (e.read_history cid tok nc nl).2
  | .publish cid entry draw => (e.publish_history cid entry draw).2
  | .dispute entry => (e.maybe_dispute entry).2
  | .decay => e.decay_credits
  | .distribute => e.distribute_pool
  | .optOut cid => e.updateClinic cid (fun c => { c with opted_in := false })

/-- The stored clinic ids, in order (unique for every engine the program
builds, since Python dict keys are unique). -/
def clinicIds (e : ReciprocityEngine) : List String := e.clinics.map Clinic.clinic_id

theorem clinicIds_updateClinic (e : ReciprocityEngine) (cid : String) (f : Clinic → Clinic)
    (hf : ∀ c, (f c).clinic_id = c.clinic_id) :
    clinicIds (e.updateClinic cid f) = clinicIds e := by
  unfold clinicIds ReciprocityEngine.updateClinic
  rw [List.map_map]
  apply List.map_congr_left
  intro x _
  simp only [Function.comp]
  split_ifs
  · rw [hf]
  · rfl

theorem findClinic_unique (e : ReciprocityEngine) (hnd : (clinicIds e).Nodup)
    (cid : String) (c x : Clinic) (hc : e.findClinic cid = some c)
    (hx : x ∈ e.clinics) (hid : (x.clinic_id == cid) = true) : x = c := by
  have hc' : e.clinics.find? (fun d => d.clinic_id == cid) = some c := hc
  have hcmem : c ∈ e.clinics := List.mem_of_find?_eq_some hc'
  have hcid : (c.clinic_id == cid) = true := by
    have h := List.find?_some hc'
    simpa using h
  have h1 : x.clinic_id = cid := by simpa using hid
  have h2 : c.clinic_id = cid := by simpa using hcid
  exact List.inj_on_of_nodup_map hnd hx hcmem (by rw [h1, h2])

/-- All stored credit balances are non-negative. -/
def AllNonneg (e : ReciprocityEngine) : Prop := ∀ c ∈ e.clinics, 0 ≤ c.credits

theorem allNonneg_update (e : ReciprocityEngine) (cid : String) (f : Clinic → Clinic)
    (hall : AllNonneg e)
    (hf : ∀ x ∈ e.clinics, (x.clinic_id == cid) = true → 0 ≤ x.credits → 0 ≤ (f x).credits) :
    AllNonneg (e.updateClinic cid f) := by
  intro c hc
  simp only [ReciprocityEngine.updateClinic, List.mem_map] at hc
  obtain ⟨x, hx, rfl⟩ := hc
  split_ifs with h
  · exact hf x hx h (hall x hx)
  · exact hall x hx

theorem allNonneg_maybe_dispute (e : ReciprocityEngine) (entry : HistoryEntry)
    (hnd : (clinicIds e).Nodup) (hall : AllNonneg e) :
    AllNonneg (e.maybe_dispute entry).2 := by
  unfold ReciprocityEngine.maybe_dispute
  split_ifs with hq
  · cases ha : e.findClinic entry.author_clinic_id with
    | none => exact hall
    | some a =>
      apply allNonneg_update e _ _ hall
      intro x hx hid hxc
      have hxa : x = a := findClinic_unique e hnd _ a x ha hx hid
      subst hxa
      have hmin : min e.slash_amount x.credits ≤ x.credits := min_le_right _ _
      simp only
      omega
  · exact hall

theorem can_read_none (e : ReciprocityEngine) (cid : String) (tok : AccessToken) (now : ℚ)
    (hfc : e.findClinic cid = none) : e.can_read cid tok now = .error (.keyError cid) := by
  unfold ReciprocityEngine.can_read
  rw [hfc]

theorem read_history_err (e : ReciprocityEngine) (cid : String) (tok : AccessToken)
    (nc nl : ℚ) (err : PyErr) (h : e.can_read cid tok nc = .error err) :
    e.read_history cid tok nc nl = (.error err, e) := by
  unfold ReciprocityEngine.read_history
  rw [h]

theorem publish_history_none (e : ReciprocityEngine) (cid : String) (entry : HistoryEntry)
    (draw : ℚ) (hfc : e.findClinic cid = none) :
    e.publish_history cid entry draw = (.error (.keyError cid), e) := by
  unfold ReciprocityEngine.publish_history
  rw [hfc]

theorem pyint_nonneg (q : ℚ) (h : 0 ≤ q) : 0 ≤ pyint q := by
  unfold pyint
  rw [if_neg (not_lt.mpr h)]
  exact Int.floor_nonneg.mpr h

theorem pymul_nonneg (x y : ℚ) (hx : 0 ≤ x) (hy : 0 ≤ y) : 0 ≤ pymul x y :=
  floatRound_nonneg _ (mul_nonneg hx hy)

theorem pydiv_nonneg (x y : ℚ) (hx : 0 ≤ x) (hy : 0 ≤ y) : 0 ≤ pydiv x y :=
  floatRound_nonneg _ (div_nonneg hx hy)

theorem floatOfInt_nonneg (n : ℤ) (h : 0 ≤ n) : 0 ≤ floatOfInt n :=
  floatRound_nonneg _ (by exact_mod_cast h)

theorem poolShare_nonneg (pool c t : ℤ) (hp : 0 ≤ pool) (hc : 0 ≤ c) (ht : 0 ≤ t) :
    0 ≤ ReciprocityEngine.poolShare pool c t :=
  pyint_nonneg _ (pymul_nonneg _ _ (floatOfInt_nonneg _ hp)
    (pydiv_nonneg _ _ (by exact_mod_cast hc) (by exact_mod_cast ht)))

theorem clinicIds_publishSuccess (e : ReciprocityEngine) (cid : String)
    (entry : HistoryEntry) :
    clinicIds (e.publishSuccess cid entry) = clinicIds e :=
  clinicIds_updateClinic e cid _ (fun _ => rfl)

theorem allNonneg_publishSuccess (e : ReciprocityEngine) (cid : String)
    (entry : HistoryEntry) (c : Clinic) (hfc : e.findClinic cid = some c)
    (hnd : (clinicIds e).Nodup) (hrew : 0 ≤ e.publish_reward) (hall : AllNonneg e)
    (hcred : ¬ c.credits < e.publish_stake) :
    AllNonneg (e.publishSuccess cid entry) := by
  apply allNonneg_update e _ _ hall
  intro x hx hid hxc
  have hxeq : x = c := findClinic_unique e hnd cid c x hfc hx hid
  subst hxeq
  show 0 ≤ x.credits - e.publish_stake + e.publish_reward
  omega

/-- C5: every engine operation (and the driver's opt-out write) keeps every
registered clinic's credit balance non-negative, given non-negative
configuration rewards and unique clinic ids (dict keys); and a dispute slash
subtracts exactly `min slash_amount credits` from the author, so it never
overdraws. -/
theorem credits_never_negative (op : EngineOp) (e : ReciprocityEngine)
    (hnd : (clinicIds e).Nodup) (hrew : 0 ≤ e.publish_reward) (hall : AllNonneg e) :
    AllNonneg (applyOp op e) ∧
    (∀ entry a, e.findClinic entry.author_clinic_id = some a →
      entry.quality_score < e.dispute_threshold →
      (e.maybe_dispute entry).2 =
        e.updateClinic entry.author_clinic_id (fun c =>
          { c with credits := c.credits - min e.slash_amount a.credits,
                   reputation := pymul c.reputation (pylit 9 10) })) := by
  constructor
  · cases op with
    | read cid tok nc nl =>
      show AllNonneg (e.read_history cid tok nc nl).2
      cases hfc : e.findClinic cid with
      | none =>
        rw [read_history_err e cid tok nc nl _ (can_read_none e cid tok nc hfc)]
        exact hall
      | some c =>
        obtain ⟨b, hb⟩ : ∃ b, e.can_read cid tok nc = .ok b := by
          rw [can_read_eq e cid tok nc c hfc]
          split_ifs <;> exact ⟨_, rfl⟩
        cases b
        · rw [read_history_canFalse e cid tok nc nl hb]
          exact hall
        · rw [read_history_canTrue e cid tok nc nl c hb hfc]
          split_ifs with hlt
          · exact hall
          · show AllNonneg (e.readSuccess cid tok nl)
            apply allNonneg_update e _ _ hall
            intro x hx hid hxc
            have hxeq : x = c := findClinic_unique e hnd cid c x hfc hx hid
            subst hxeq
            show 0 ≤ x.credits - e.read_cost
            omega
    | publish cid entry draw =>
      show AllNonneg (e.publish_history cid entry draw).2
      cases hfc : e.findClinic cid with
      | none =>
        rw [publish_history_none e cid entry draw hfc]
        exact hall
      | some c =>
        rw [publish_history_eq e cid entry draw c hfc]
        split_ifs with h1 h2 h3
        · exact hall
        · exact hall
        · dsimp only
          apply allNonneg_maybe_dispute
          · rw [clinicIds_publishSuccess]
            exact hnd
          · exact allNonneg_publishSuccess e cid entry c hfc hnd hrew hall h2
        · exact allNonneg_publishSuccess e cid entry c hfc hnd hrew hall h2
    | dispute entry => exact allNonneg_maybe_dispute e entry hnd hall
    | decay =>
      intro c hc
      simp only [applyOp, ReciprocityEngine.decay_credits, List.mem_map] at hc
      obtain ⟨x, hx, rfl⟩ := hc
      split_ifs
      · show 0 ≤ max 0 (x.credits - e.decay_per_round)
        exact le_max_left _ _
      · exact hall x hx
    | distribute =>
      show AllNonneg e.distribute_pool
      rw [distribute_pool_eq]
      split_ifs with hif
      · intro c hc
        simp only [List.mem_map] at hc
        obtain ⟨x, hx, rfl⟩ := hc
        exact hall x hx
      · simp only [Bool.or_eq_true, List.isEmpty_iff, decide_eq_true_eq, not_or] at hif
        obtain ⟨hnil, hple⟩ := hif
        intro c hc
        simp only [List.mem_map] at hc
        obtain ⟨x, hx, rfl⟩ := hc
        split_ifs with hxpos
        · show 0 ≤ x.credits + ReciprocityEngine.poolShare e.pool_balance
            x.last_round_contribution _
          have hsh : 0 ≤ ReciprocityEngine.poolShare e.pool_balance
              x.last_round_contribution
              (((e.clinics.filter (fun c => decide (0 < c.last_round_contribution))).map
                (fun c => c.last_round_contribution)).sum) := by
            apply poolShare_nonneg
            · omega
            · simp only [decide_eq_true_eq] at hxpos
              omega
            · apply le_of_lt
              apply List.sum_pos
              · intro a ha
                simp only [List.mem_map, List.mem_filter, decide_eq_true_eq] at ha
                obtain ⟨y, ⟨_, hy⟩, rfl⟩ := ha
                exact hy
              · simp only [ne_eq, List.map_eq_nil_iff]
                exact hnil
          have hx0 := hall x hx
          omega
        · exact hall x hx
    | optOut cid =>
      apply allNonneg_update e _ _ hall
      intro x _ _ hxc
      exact hxc
  · intro entry a ha hq
    unfold ReciprocityEngine.maybe_dispute
    rw [if_pos hq, ha]

/-- Example fixture: a low-quality entry authored by clinic `A`. -/
def exEntryLowQ : HistoryEntry :=
  { patient_id := "P", author_clinic_id := "A", summary := "s", quality_score := 0,
    timestamp := 0 }

/-- Example fixture: an engine with one clinic `A` holding 3 credits. -/
def exEngineA3 : ReciprocityEngine := { clinics := [{ clinic_id := "A", credits := 3 }] }

/-- Witness for `credits_never_negative`: a dispute that slashes an author
holding 3 credits with `slash_amount = 6` clamps to 3 and leaves every
balance non-negative. -/
theorem credits_never_negative_witness :
    AllNonneg (applyOp (.dispute exEntryLowQ) exEngineA3) :=
  (credits_never_negative (.dispute exEntryLowQ) exEngineA3
    (by decide) (by decide) (by unfold AllNonneg; decide)).1

/-- Order relation on clinic lists: same length, pointwise non-increasing
reputation, and all reputations in `(0, 1]` on the right. -/
def RepOk (l l' : List Clinic) : Prop :=
  l'.length = l.length ∧
  (∀ i (h1 : i < l.length) (h2 : i < l'.length),
    (l'.get ⟨i, h2⟩).reputation ≤ (l.get ⟨i, h1⟩).reputation) ∧
  (∀ c ∈ l', 0 < c.reputation ∧ c.reputation ≤ 1)

theorem repOk_refl (l : List Clinic)
    (hpos : ∀ c ∈ l, 0 < c.reputation ∧ c.reputation ≤ 1) : RepOk l l :=
  ⟨rfl, fun _ _ _ => le_rfl, hpos⟩

theorem repOk_trans (l l' l'' : List Clinic) (h : RepOk l l') (h' : RepOk l' l'') :
    RepOk l l'' := by
  obtain ⟨hlen, hpt, hmem⟩ := h
  obtain ⟨hlen', hpt', hmem'⟩ := h'
  refine ⟨hlen'.trans hlen, ?_, hmem'⟩
  intro i h1 h2
  have hmid : i < l'.length := by omega
  exact (hpt' i hmid h2).trans (hpt i h1 hmid)

theorem repOk_map (l : List Clinic) (f : Clinic → Clinic)
    (hpos : ∀ c ∈ l, 0 < c.reputation ∧ c.reputation ≤ 1)
    (hf : ∀ x ∈ l, (f x).reputation ≤ x.reputation ∧ 0 < (f x).reputation) :
    RepOk l (l.map f) := by
  refine ⟨List.length_map l f, ?_, ?_⟩
  · intro i h1 h2
    have hget : (l.map f).get ⟨i, h2⟩ = f (l.get ⟨i, h1⟩) := by
      simp [List.get_eq_getElem]
    rw [hget]
    exact (hf _ (List.get_mem l i h1)).1
  · intro c hc
    simp only [List.mem_map] at hc
    obtain ⟨x, hx, rfl⟩ := hc
    exact ⟨(hf x hx).2, ((hf x hx).1).trans (hpos x hx).2⟩

theorem repOk_map_pres (l : List Clinic) (f : Clinic → Clinic)
    (hpos : ∀ c ∈ l, 0 < c.reputation ∧ c.reputation ≤ 1)
    (hfr : ∀ x ∈ l, (f x).reputation = x.reputation) : RepOk l (l.map f) :=
  repOk_map l f hpos (fun x hx => ⟨(hfr x hx).le, (hfr x hx) ▸ (hpos x hx).1⟩)

/-- Multiplying a positive reputation by the binary64 literal `0.9` (with
the rounded product) strictly keeps it in range: the result is at most the
input and still positive. -/
theorem pymul_rep_le (r : ℚ) (hr : 0 < r) :
    pymul r (pylit 9 10) ≤ r ∧ 0 < pymul r (pylit 9 10) := by
  have h910 : (0:ℚ) < ((9:ℕ):ℚ) / ((10:ℕ):ℚ) := by norm_num
  have hl_pos : 0 < pylit 9 10 := floatRound_pos _ h910
  have hl_le : pylit 9 10 ≤ (((9:ℕ):ℚ) / ((10:ℕ):ℚ)) * (1 + ulp) := floatRound_le _ h910
  have hprod_pos : 0 < r * pylit 9 10 := mul_pos hr hl_pos
  refine ⟨?_, floatRound_pos _ hprod_pos⟩
  have h1 : pymul r (pylit 9 10) ≤ (r * pylit 9 10) * (1 + ulp) := floatRound_le _ hprod_pos
  have h2 : r * pylit 9 10 ≤ r * ((((9:ℕ):ℚ) / ((10:ℕ):ℚ)) * (1 + ulp)) :=
    mul_le_mul_of_nonneg_left hl_le hr.le
  have h3 : (((9:ℕ):ℚ) / ((10:ℕ):ℚ)) * (1 + ulp) * (1 + ulp) ≤ 1 := by
    norm_num [ulp]
  have hup : (0:ℚ) < 1 + ulp := by norm_num [ulp]
  nlinarith

theorem repOk_maybe_dispute (e : ReciprocityEngine) (entry : HistoryEntry)
    (hpos : ∀ c ∈ e.clinics, 0 < c.reputation ∧ c.reputation ≤ 1) :
    RepOk e.clinics (e.maybe_dispute entry).2.clinics := by
  unfold ReciprocityEngine.maybe_dispute
  split_ifs with hq
  · cases ha : e.findClinic entry.author_clinic_id with
    | none => exact repOk_refl _ hpos
    | some a =>
      apply repOk_map _ _ hpos
      intro x hx
      by_cases hid : (x.clinic_id == entry.author_clinic_id) = true
      · rw [if_pos hid]
        exact pymul_rep_le x.reputation (hpos x hx).1
      · rw [if_neg hid]
        exact ⟨le_rfl, (hpos x hx).1⟩
  · exact repOk_refl _ hpos

/-- C9: every engine operation, and the driver's opt-out write, leaves every
registered clinic's reputation non-increasing, positive, and bounded above
by `1.0` (the value every clinic starts from). -/
theorem reputation_monotone (op : EngineOp) (e : ReciprocityEngine)
    (hpos : ∀ c ∈ e.clinics, 0 < c.reputation ∧ c.reputation ≤ 1) :
    RepOk e.clinics (applyOp op e).clinics := by
  cases op with
  | read cid tok nc nl =>
    show RepOk e.clinics (e.read_history cid tok nc nl).2.clinics
    cases hfc : e.findClinic cid with
    | none =>
      rw [read_history_err e cid tok nc nl _ (can_read_none e cid tok nc hfc)]
      exact repOk_refl _ hpos
    | some c =>
      obtain ⟨b, hb⟩ : ∃ b, e.can_read cid tok nc = .ok b := by
        rw [can_read_eq e cid tok nc c hfc]
        split_ifs <;> exact ⟨_, rfl⟩
      cases b
      · rw [read_history_canFalse e cid tok nc nl hb]
        exact repOk_refl _ hpos
      · rw [read_history_canTrue e cid tok nc nl c hb hfc]
        split_ifs with hlt
        · exact repOk_refl _ hpos
        · apply repOk_map_pres _ _ hpos
          intro x _
          by_cases hid : (x.clinic_id == cid) = true
          · rw [if_pos hid]
          · rw [if_neg hid]
  | publish cid entry draw =>
    show RepOk e.clinics (e.publish_history cid entry draw).2.clinics
    have hpub : RepOk e.clinics (e.publishSuccess cid entry).clinics := by
      apply repOk_map_pres _ _ hpos
      intro x _
      by_cases hid : (x.clinic_id == cid) = true
      · rw [if_pos hid]
      · rw [if_neg hid]
    cases hfc : e.findClinic cid with
    | none =>
      rw [publish_history_none e cid entry draw hfc]
      exact repOk_refl _ hpos
    | some c =>
      rw [publish_history_eq e cid entry draw c hfc]
      split_ifs with h1 h2 h3
      · exact repOk_refl _ hpos
      · exact repOk_refl _ hpos
      · dsimp only
        refine repOk_trans _ _ _ hpub ?_
        exact repOk_maybe_dispute (e.publishSuccess cid entry) (e.stakedEntry entry) hpub.2.2
      · exact hpub
  | dispute entry => exact repOk_maybe_dispute e entry hpos
  | decay =>
    apply repOk_map_pres _ _ hpos
    intro x _
    split_ifs <;> rfl
  | distribute =>
    show RepOk e.clinics e.distribute_pool.clinics
    rw [distribute_pool_eq]
    split_ifs with hif
    · exact repOk_map_pres _ _ hpos (fun x _ => rfl)
    · apply repOk_map_pres _ _ hpos
      intro x _
      split_ifs <;> rfl
  | optOut cid =>
    apply repOk_map_pres _ _ hpos
    intro x _
    by_cases hid : (x.clinic_id == cid) = true
    · rw [if_pos hid]
    · rw [if_neg hid]

/-- Witness for `reputation_monotone`: a dispute against the single clinic
(reputation 1) yields a clinics list related by `RepOk`. -/
theorem reputation_monotone_witness :
    RepOk exEngineA3.clinics (applyOp (.dispute exEntryLowQ) exEngineA3).clinics :=
  reputation_monotone (.dispute exEntryLowQ) exEngineA3 (by decide)

/-! ## C6: successful reads -/

theorem pyint_eq_floor (q : ℚ) (h : 0 ≤ q) : pyint q = ⌊q⌋ := by
  unfold pyint
  rw [if_neg (not_lt.mpr h)]

theorem findClinic_updateClinic (e : ReciprocityEngine) (cid : String) (f : Clinic → Clinic)
    (hf : ∀ x, (f x).clinic_id = x.clinic_id) (cid2 : String) :
    (e.updateClinic cid f).findClinic cid2 =
      (e.findClinic cid2).map (fun x => if x.clinic_id == cid then f x else x) := by
  unfold ReciprocityEngine.updateClinic ReciprocityEngine.findClinic
  rw [List.find?_map]
  have hp : ((fun c => c.clinic_id == cid2) ∘
      (fun c => if (c.clinic_id == cid) = true then f c else c)) =
      (fun c : Clinic => c.clinic_id == cid2) := by
    funext x
    simp only [Function.comp]
    split_ifs with h
    · rw [hf]
    · rfl
  rw [hp]

/-- C6: whenever `can_read` is true and the clinic's balance covers the read
cost, `read_history` returns the patient's full stored history, debits
exactly `read_cost` from that clinic, adds exactly
`⌊read_cost ×₆₄ match_pool_rate⌋` (the floor of the binary64 product, which
is what `int(read_cost * match_pool_rate)` computes for non-negative
configurations) to the pool, appends exactly one access-log entry, and
leaves the stored patient histories untouched (the caller gets a copy). -/
theorem read_history_success (e : ReciprocityEngine) (cid : String) (tok : AccessToken)
    (nc nl : ℚ) (c : Clinic)
    (hc : e.findClinic cid = some c)
    (hcr : e.can_read cid tok nc = .ok true)
    (hcred : ¬ c.credits < e.read_cost)
    (hrc : 0 ≤ e.read_cost) (hrate : 0 ≤ e.match_pool_rate) :
    (e.read_history cid tok nc nl).1 = .ok (e.historyOf tok.patient_id) ∧
    (e.read_history cid tok nc nl).2.findClinic cid =
      some { c with credits := c.credits - e.read_cost } ∧
    (e.read_history cid tok nc nl).2.pool_balance =
      e.pool_balance + ⌊pymul (floatOfInt e.read_cost) e.match_pool_rate⌋ ∧
    (e.read_history cid tok nc nl).2.access_log =
      e.access_log ++ [(nl, cid, tok.patient_id)] ∧
    (e.read_history cid tok nc nl).2.patient_histories = e.patient_histories := by
  have hre := read_history_canTrue e cid tok nc nl c hcr hc
  rw [if_neg hcred] at hre
  rw [hre]
  have hcid : (c.clinic_id == cid) = true := by
    have h := List.find?_some (hc : e.clinics.find? (fun d => d.clinic_id == cid) = some c)
    simpa using h
  refine ⟨rfl, ?_, ?_, rfl, rfl⟩
  · show (e.updateClinic cid (fun d => { d with credits := d.credits - e.read_cost })).findClinic
        cid = _
    rw [findClinic_updateClinic e cid
      (fun d => { d with credits := d.credits - e.read_cost }) (fun x => rfl) cid, hc]
    simp only [Option.map_some']
    rw [if_pos hcid]
  · show e.pool_balance + pyint (pymul (floatOfInt e.read_cost) e.match_pool_rate) = _
    rw [pyint_eq_floor _ (pymul_nonneg _ _ (floatOfInt_nonneg _ hrc) hrate)]

/-- The binary64 literal `0.5` is exact. -/
theorem pylit_half_eval : pylit 5 10 = 1/2 := by
  unfold pylit
  exact floatRound_eq_pos _ (-1) 4503599627370496 4503599627370496 (1/2)
    (by norm_num) (by norm_num) (by norm_num) (by norm_num)
    (rne_eq_low _ _ (by norm_num) (by norm_num)) (by norm_num)

/-- The binary64 value of the integer 3 is exact. -/
theorem floatOfInt_3_eval : floatOfInt 3 = 3 := by
  unfold floatOfInt
  exact floatRound_eq_pos _ 1 6755399441055744 6755399441055744 3
    (by norm_num) (by norm_num) (by norm_num) (by norm_num)
    (rne_eq_low _ _ (by norm_num) (by norm_num)) (by norm_num)

/-- `3 * 0.5` is exact in binary64: the pool contribution of a default read
is `int(1.5) = 1`. -/
theorem pymul_3_half_eval : pymul (floatOfInt 3) (pylit 5 10) = 3/2 := by
  rw [floatOfInt_3_eval, pylit_half_eval]
  unfold pymul
  exact floatRound_eq_pos _ 0 6755399441055744 6755399441055744 (3/2)
    (by norm_num) (by norm_num) (by norm_num) (by norm_num)
    (rne_eq_low _ _ (by norm_num) (by norm_num)) (by norm_num)

/-- Example fixture: the engine of the read scenario — defaults
(`read_cost = 3`, `min_credits_to_read = 3`, `match_pool_rate = 0.5`), one
clinic with 5 credits, one patient with one published entry. -/
def exReadEngine : ReciprocityEngine :=
  { clinics := [{ clinic_id := "A", credits := 5 }],
    patient_histories :=
      [("P", [{ patient_id := "P", author_clinic_id := "A", summary := "s",
                quality_score := 1, timestamp := 0 }])] }

/-- Example fixture: a token for patient `P` issued to clinic `A`. -/
def exTokenPA : AccessToken :=
  { patient_id := "P", issued_to_clinic_id := "A", expires_at := 10 }

/-- Witness for `read_history_success`, the scenario of the claim: balance
becomes 2, the pool increases by 1, and the returned sequence has length 1. -/
theorem read_history_success_witness :
    (exReadEngine.read_history "A" exTokenPA 0 1).1 = .ok (exReadEngine.historyOf "P") ∧
    (exReadEngine.read_history "A" exTokenPA 0 1).2.findClinic "A" =
      some { clinic_id := "A", credits := 2 } ∧
    (exReadEngine.read_history "A" exTokenPA 0 1).2.pool_balance = 1 ∧
    (exReadEngine.historyOf "P").length = 1 := by
  have h := read_history_success exReadEngine "A" exTokenPA 0 1
    { clinic_id := "A", credits := 5 } rfl rfl (by decide) (by decide)
    (by rw [show exReadEngine.match_pool_rate = pylit 5 10 from rfl, pylit_half_eval]
        norm_num)
  refine ⟨h.1, ?_, ?_, rfl⟩
  · rw [h.2.1]
    rfl
  · rw [h.2.2.1, show exReadEngine.read_cost = (3:ℤ) from rfl,
      show exReadEngine.match_pool_rate = pylit 5 10 from rfl, pymul_3_half_eval,
      show exReadEngine.pool_balance = (0:ℤ) from rfl]
    norm_num

/-! ## C3: pool distribution shares -/

theorem pyint_cast_le (q : ℚ) (h : 0 ≤ q) : ((pyint q : ℤ) : ℚ) ≤ q := by
  rw [pyint_eq_floor _ h]
  exact Int.floor_le _

/-- The binary64 share `int(p * (c/t))` is at most `p·(c/t)·(1+ulp)³`:
one relative rounding error for the division, one for the conversion of
`p`, one for the product. -/
theorem poolShare_le (p c t : ℤ) (hp : 0 < p) (hc : 0 < c) (ht : 0 < t) :
    ((ReciprocityEngine.poolShare p c t : ℤ) : ℚ) ≤
      (p:ℚ) * ((c:ℚ)/(t:ℚ)) * (1 + ulp)^3 := by
  have hcq : (0:ℚ) < (c:ℚ) := by exact_mod_cast hc
  have htq : (0:ℚ) < (t:ℚ) := by exact_mod_cast ht
  have hpq : (0:ℚ) < (p:ℚ) := by exact_mod_cast hp
  have hu : (0:ℚ) < 1 + ulp := by norm_num [ulp]
  have hdiv : (0:ℚ) < (c:ℚ)/(t:ℚ) := div_pos hcq htq
  have h1 : pydiv (c:ℚ) (t:ℚ) ≤ ((c:ℚ)/(t:ℚ)) * (1+ulp) := floatRound_le _ hdiv
  have h1p : 0 < pydiv (c:ℚ) (t:ℚ) := floatRound_pos _ hdiv
  have h2 : floatOfInt p ≤ (p:ℚ) * (1+ulp) := floatRound_le _ hpq
  have h2p : 0 < floatOfInt p := floatRound_pos _ hpq
  have h3 : floatOfInt p * pydiv (c:ℚ) (t:ℚ) ≤
      ((p:ℚ) * (1+ulp)) * (((c:ℚ)/(t:ℚ)) * (1+ulp)) :=
    mul_le_mul h2 h1 h1p.le (by positivity)
  have h3p : 0 < floatOfInt p * pydiv (c:ℚ) (t:ℚ) := mul_pos h2p h1p
  have h4 : pymul (floatOfInt p) (pydiv (c:ℚ) (t:ℚ)) ≤
      (floatOfInt p * pydiv (c:ℚ) (t:ℚ)) * (1+ulp) := floatRound_le _ h3p
  have h5 : (0:ℚ) ≤ pymul (floatOfInt p) (pydiv (c:ℚ) (t:ℚ)) := floatRound_nonneg _ h3p.le
  have h6 : ((pyint (pymul (floatOfInt p) (pydiv (c:ℚ) (t:ℚ))) : ℤ) : ℚ) ≤
      pymul (floatOfInt p) (pydiv (c:ℚ) (t:ℚ)) := pyint_cast_le _ h5
  have h7 : (floatOfInt p * pydiv (c:ℚ) (t:ℚ)) * (1+ulp) ≤
      ((p:ℚ) * (1+ulp)) * (((c:ℚ)/(t:ℚ)) * (1+ulp)) * (1+ulp) :=
    mul_le_mul_of_nonneg_right h3 hu.le
  have h8 : ((p:ℚ) * (1+ulp)) * (((c:ℚ)/(t:ℚ)) * (1+ulp)) * (1+ulp) =
      (p:ℚ) * ((c:ℚ)/(t:ℚ)) * (1 + ulp)^3 := by ring
  unfold ReciprocityEngine.poolShare
  linarith

theorem share_list_bound (p t : ℤ) (hp : 0 < p) (ht : 0 < t) :
    ∀ l : List ℤ, (∀ x ∈ l, 0 < x) →
      (((l.map (fun c => ReciprocityEngine.poolShare p c t)).sum : ℤ) : ℚ) ≤
        (p:ℚ) * (((l.sum : ℤ):ℚ)/(t:ℚ)) * (1 + ulp)^3 := by
  intro l
  induction l with
  | nil => simp
  | cons a as ih =>
    intro hall
    have hha : 0 < a := hall a (List.mem_cons_self a as)
    have h1 := poolShare_le p a t hp hha ht
    have h2 := ih (fun x hx => hall x (List.mem_cons_of_mem a hx))
    simp only [List.map_cons, List.sum_cons]
    push_cast at h2 ⊢
    have hsplit : (p:ℚ) * (((a:ℚ) + ((as.sum : ℤ):ℚ))/(t:ℚ)) * (1+ulp)^3 =
        (p:ℚ) * ((a:ℚ)/(t:ℚ)) * (1+ulp)^3 +
        (p:ℚ) * (((as.sum : ℤ):ℚ)/(t:ℚ)) * (1+ulp)^3 := by
      ring
    push_cast at hsplit
    linarith

/-- C3 (amended): with at least one contributor and a positive pool (below
`2^50`, far above any reachable pool), each contributor is credited exactly
`int(pool_balance * (contribution / total_contributions))` computed in
binary64 floating point — which can fall short of the exact integer
`⌊pool·contribution/total⌋` — the credited shares sum to at most the
pre-distribution pool balance, and the pool then resets to 0. -/
theorem distribute_pool_shares (e : ReciprocityEngine)
    (hpool : 0 < e.pool_balance) (hbound : e.pool_balance ≤ 2 ^ 50)
    (hne : ∃ c ∈ e.clinics, 0 < c.last_round_contribution) :
    (∀ i (h1 : i < e.clinics.length) (h2 : i < e.distribute_pool.clinics.length),
      (e.distribute_pool.clinics.get ⟨i, h2⟩).credits =
        (e.clinics.get ⟨i, h1⟩).credits +
          (if 0 < (e.clinics.get ⟨i, h1⟩).last_round_contribution then
            ReciprocityEngine.poolShare e.pool_balance
              (e.clinics.get ⟨i, h1⟩).last_round_contribution
              (((e.clinics.filter (fun c => decide (0 < c.last_round_contribution))).map
                (fun c => c.last_round_contribution)).sum)
          else 0)) ∧
    (((e.clinics.filter (fun c => decide (0 < c.last_round_contribution))).map
        (fun c => ReciprocityEngine.poolShare e.pool_balance c.last_round_contribution
          (((e.clinics.filter (fun c => decide (0 < c.last_round_contribution))).map
            (fun c => c.last_round_contribution)).sum))).sum ≤ e.pool_balance) ∧
    e.distribute_pool.pool_balance = 0 := by
  obtain ⟨c0, hc0, hc0pos⟩ := hne
  have hmem : c0 ∈ e.clinics.filter (fun c => decide (0 < c.last_round_contribution)) :=
    List.mem_filter.mpr ⟨hc0, by simpa using hc0pos⟩
  have hnil : e.clinics.filter (fun c => decide (0 < c.last_round_contribution)) ≠ [] :=
    List.ne_nil_of_mem hmem
  have hfalse : ((e.clinics.filter (fun c => decide (0 < c.last_round_contribution))).isEmpty
      || decide (e.pool_balance ≤ 0)) = false := by
    rw [Bool.or_eq_false_iff]
    constructor
    · rw [Bool.eq_false_iff]
      intro hemp
      exact hnil (List.isEmpty_iff.mp hemp)
    · simpa using hpool
  have htpos : 0 < ((e.clinics.filter
      (fun c => decide (0 < c.last_round_contribution))).map
      (fun c => c.last_round_contribution)).sum := by
    apply List.sum_pos
    · intro a ha
      simp only [List.mem_map, List.mem_filter, decide_eq_true_eq] at ha
      obtain ⟨y, ⟨_, hy⟩, rfl⟩ := ha
      exact hy
    · simp only [ne_eq, List.map_eq_nil_iff]
      exact hnil
  refine ⟨?_, ?_, ?_⟩
  · intro i h1 h2
    have hget : e.distribute_pool.clinics.get ⟨i, h2⟩ =
        (fun c => if decide (0 < c.last_round_contribution) then
          { c with
            credits := c.credits + ReciprocityEngine.poolShare e.pool_balance
              c.last_round_contribution
              (((e.clinics.filter (fun c => decide (0 < c.last_round_contribution))).map
                (fun c => c.last_round_contribution)).sum),
            last_round_contribution := 0 }
        else { c with last_round_contribution := 0 }) (e.clinics.get ⟨i, h1⟩) := by
      simp [distribute_pool_eq, hfalse]
    rw [hget]
    dsimp only
    by_cases hpos : 0 < (e.clinics.get ⟨i, h1⟩).last_round_contribution
    · rw [if_pos (show (decide (0 < (e.clinics.get ⟨i, h1⟩).last_round_contribution)) = true by
        simpa using hpos), if_pos hpos]
    · rw [if_neg (show ¬ (decide (0 < (e.clinics.get ⟨i, h1⟩).last_round_contribution)) = true by
        simpa using hpos), if_neg hpos]
      simp
  · have hmm : (e.clinics.filter (fun c => decide (0 < c.last_round_contribution))).map
        (fun c => ReciprocityEngine.poolShare e.pool_balance c.last_round_contribution
          (((e.clinics.filter (fun c => decide (0 < c.last_round_contribution))).map
            (fun c => c.last_round_contribution)).sum)) =
        ((e.clinics.filter (fun c => decide (0 < c.last_round_contribution))).map
          (fun c => c.last_round_contribution)).map
          (fun x => ReciprocityEngine.poolShare e.pool_balance x
            (((e.clinics.filter (fun c => decide (0 < c.last_round_contribution))).map
              (fun c => c.last_round_contribution)).sum)) := by
      rw [List.map_map]
      rfl
    rw [hmm]
    have hkey := share_list_bound e.pool_balance _ hpool htpos
      (((e.clinics.filter (fun c => decide (0 < c.last_round_contribution))).map
        (fun c => c.last_round_contribution)))
      (by
        intro x hx
        simp only [List.mem_map, List.mem_filter, decide_eq_true_eq] at hx
        obtain ⟨y, ⟨_, hy⟩, rfl⟩ := hx
        exact hy)
    set S := (((e.clinics.filter (fun c => decide (0 < c.last_round_contribution))).map
      (fun c => c.last_round_contribution)).map
      (fun x => ReciprocityEngine.poolShare e.pool_balance x
        (((e.clinics.filter (fun c => decide (0 < c.last_round_contribution))).map
          (fun c => c.last_round_contribution)).sum))).sum with hS
    set T := ((e.clinics.filter (fun c => decide (0 < c.last_round_contribution))).map
      (fun c => c.last_round_contribution)).sum with hT
    have hTq : ((T:ℤ):ℚ) ≠ 0 := by
      have : (0:ℚ) < ((T:ℤ):ℚ) := by exact_mod_cast htpos
      linarith
    have hdivT : ((T:ℤ):ℚ)/((T:ℤ):ℚ) = 1 := div_self hTq
    rw [hdivT] at hkey
    have hnum : ((1 + ulp)^3 - 1) * 2^50 < 1 := by norm_num [ulp]
    have hpq : (0:ℚ) < (e.pool_balance : ℚ) := by exact_mod_cast hpool
    have hbq : (e.pool_balance : ℚ) ≤ 2^50 := by exact_mod_cast hbound
    have hupos : (0:ℚ) < (1 + ulp)^3 - 1 := by norm_num [ulp]
    have hlt : (e.pool_balance : ℚ) * 1 * (1 + ulp)^3 < (e.pool_balance : ℚ) + 1 := by
      nlinarith
    have hSq : ((S:ℤ):ℚ) < (e.pool_balance : ℚ) + 1 := lt_of_le_of_lt hkey hlt
    have hSZ : S < e.pool_balance + 1 := by exact_mod_cast hSq
    omega
  · rw [distribute_pool_eq]
    simp [hfalse]

/-- `int(8 * (1/4))` in binary64 is exactly 2 (all values representable). -/
theorem poolShare_8_1_4 : ReciprocityEngine.poolShare 8 1 4 = 2 := by
  unfold ReciprocityEngine.poolShare
  have h8 : floatOfInt 8 = 8 := by
    unfold floatOfInt
    exact floatRound_eq_pos _ 3 4503599627370496 4503599627370496 8
      (by norm_num) (by norm_num) (by norm_num) (by norm_num)
      (rne_eq_low _ _ (by norm_num) (by norm_num)) (by norm_num)
  have hdiv : pydiv ((1:ℤ):ℚ) ((4:ℤ):ℚ) = 1/4 := by
    unfold pydiv
    exact floatRound_eq_pos _ (-2) 4503599627370496 4503599627370496 (1/4)
      (by norm_num) (by norm_num) (by norm_num) (by norm_num)
      (rne_eq_low _ _ (by norm_num) (by norm_num)) (by norm_num)
  rw [h8, hdiv]
  have hmul : pymul 8 (1/4) = 2 := by
    unfold pymul
    exact floatRound_eq_pos _ 1 4503599627370496 4503599627370496 2
      (by norm_num) (by norm_num) (by norm_num) (by norm_num)
      (rne_eq_low _ _ (by norm_num) (by norm_num)) (by norm_num)
  rw [hmul]
  unfold pyint
  rw [if_neg (by norm_num)]
  norm_num

/-- `int(8 * (2/4))` in binary64 is exactly 4. -/
theorem poolShare_8_2_4 : ReciprocityEngine.poolShare 8 2 4 = 4 := by
  unfold ReciprocityEngine.poolShare
  have h8 : floatOfInt 8 = 8 := by
    unfold floatOfInt
    exact floatRound_eq_pos _ 3 4503599627370496 4503599627370496 8
      (by norm_num) (by norm_num) (by norm_num) (by norm_num)
      (rne_eq_low _ _ (by norm_num) (by norm_num)) (by norm_num)
  have hdiv : pydiv ((2:ℤ):ℚ) ((4:ℤ):ℚ) = 1/2 := by
    unfold pydiv
    exact floatRound_eq_pos _ (-1) 4503599627370496 4503599627370496 (1/2)
      (by norm_num) (by norm_num) (by norm_num) (by norm_num)
      (rne_eq_low _ _ (by norm_num) (by norm_num)) (by norm_num)
  rw [h8, hdiv]
  have hmul : pymul 8 (1/2) = 4 := by
    unfold pymul
    exact floatRound_eq_pos _ 2 4503599627370496 4503599627370496 4
      (by norm_num) (by norm_num) (by norm_num) (by norm_num)
      (rne_eq_low _ _ (by norm_num) (by norm_num)) (by norm_num)
  rw [hmul]
  unfold pyint
  rw [if_neg (by norm_num)]
  norm_num

/-- The float loss case: `1/49` rounds to `5882252574524729/2^58`, the
product `49 * (1/49)` rounds to `(2^53-1)/2^53 < 1`, so
`int(49 * (1/49)) = 0` although the exact quotient is `1`. -/
theorem poolShare_49_1_49 : ReciprocityEngine.poolShare 49 1 49 = 0 := by
  unfold ReciprocityEngine.poolShare
  have h49 : floatOfInt 49 = 49 := by
    unfold floatOfInt
    exact floatRound_eq_pos _ 5 6896136929411072 6896136929411072 49
      (by norm_num) (by norm_num) (by norm_num) (by norm_num)
      (rne_eq_low _ _ (by norm_num) (by norm_num)) (by norm_num)
  have hdiv : pydiv ((1:ℤ):ℚ) ((49:ℤ):ℚ) = 5882252574524729/288230376151711744 := by
    unfold pydiv
    exact floatRound_eq_pos _ (-6) (288230376151711744/49) 5882252574524729
      (5882252574524729/288230376151711744)
      (by norm_num) (by norm_num) (by norm_num) (by norm_num)
      (rne_eq_low _ _ (by norm_num) (by norm_num)) (by norm_num)
  rw [h49, hdiv]
  have hmul : pymul 49 (5882252574524729/288230376151711744) =
      9007199254740991/9007199254740992 := by
    unfold pymul
    exact floatRound_eq_pos _ (-1) (288230376151711721/32) 9007199254740991
      (9007199254740991/9007199254740992)
      (by norm_num) (by norm_num) (by norm_num) (by norm_num)
      (rne_eq_low _ _ (by norm_num) (by norm_num)) (by norm_num)
  rw [hmul]
  unfold pyint
  rw [if_neg (by norm_num)]
  rw [Int.floor_eq_iff]
  norm_num

/-- Example fixture: the share scenario — contributions 1, 1, 2 and pool 8. -/
def exShareEngine : ReciprocityEngine :=
  { clinics := [{ clinic_id := "A", credits := 0, last_round_contribution := 1 },
                { clinic_id := "B", credits := 0, last_round_contribution := 1 },
                { clinic_id := "C", credits := 0, last_round_contribution := 2 }],
    pool_balance := 8 }

/-- Witness for `distribute_pool_shares`, the scenario of the claim:
contributions 1, 1, 2 and pool 8 give shares 2, 2, 4 and the pool resets. -/
theorem distribute_pool_shares_witness :
    (exShareEngine.distribute_pool.clinics.get ⟨0, by decide⟩).credits = 2 ∧
    (exShareEngine.distribute_pool.clinics.get ⟨1, by decide⟩).credits = 2 ∧
    (exShareEngine.distribute_pool.clinics.get ⟨2, by decide⟩).credits = 4 ∧
    exShareEngine.distribute_pool.pool_balance = 0 := by
  have h := distribute_pool_shares exShareEngine (by decide) (by norm_num [exShareEngine])
    ⟨{ clinic_id := "A", credits := 0, last_round_contribution := 1 },
      List.mem_cons_self _ _, by decide⟩
  refine ⟨?_, ?_, ?_, h.2.2⟩
  · show (0:ℤ) + ReciprocityEngine.poolShare 8 1 4 = 2
    rw [poolShare_8_1_4]
    norm_num
  · show (0:ℤ) + ReciprocityEngine.poolShare 8 1 4 = 2
    rw [poolShare_8_1_4]
    norm_num
  · show (0:ℤ) + ReciprocityEngine.poolShare 8 2 4 = 4
    rw [poolShare_8_2_4]
    norm_num

/-- Example fixture: two contributors (1 and 48 publishes) and pool 49. -/
def exShareLossEngine : ReciprocityEngine :=
  { clinics := [{ clinic_id := "A", credits := 0, last_round_contribution := 1 },
                { clinic_id := "B", credits := 0, last_round_contribution := 48 }],
    pool_balance := 49 }

/-- C3 fails as stated: with pool 49 and contributions 1 and 48, the code
credits the first clinic `int(49 * (1/49)) = 0` (binary64 arithmetic), while
the claimed exact-integer-arithmetic value `⌊49·1/49⌋` is `1`. -/
theorem distribute_pool_shares_counterexample :
    (exShareLossEngine.distribute_pool.clinics.get ⟨0, by decide⟩).credits = 0 ∧
    ⌊((49:ℚ) * 1 / 49)⌋ = 1 ∧ ((0:ℤ) ≠ 1) := by
  refine ⟨?_, by norm_num, by decide⟩
  show (0:ℤ) + ReciprocityEngine.poolShare 49 1 49 = 0
  rw [poolShare_49_1_49]
  norm_num

/-! ## C10: the simulation driver

The driver is embedded with its three sources of environment input made
explicit, as §6/§9 of the design document prescribe: `rand` is the stream of
`random.random()` values of the seeded generator, `pick` the stream of
`random.choice` selections (an index into the patient list), both consumed
by counters in program order with Python's short-circuit behaviour; `clock`
is the stream of `time.time()` readings.  A fixed number of clock ticks is
consumed per action (an over-approximation of CPython's call count on the
failure paths; the admissibility condition below constrains the whole
stream, so this loses no behaviour). -/

/-- Configuration of `simulate` (the seed is replaced by the injected
streams, which are a function of the seed outside the mechanism). -/
structure SimConfig where
  n_clinics : ℕ := 200
  n_patients : ℕ := 400
  rounds : ℕ := 45
  starter_credits : ℤ := 10
  free_rider_fraction : ℚ := pylit 18 100
  low_quality_fraction : ℚ := pylit 10 100

/-- `f"C{i:03d}"`. -/
def clinicName (i : ℕ) : String :=
  "C" ++ (if i < 10 then "00" else if i < 100 then "0" else "") ++ toString i

/-- `f"P{i:04d}"`. -/
def patientName (i : ℕ) : String :=
  "P" ++ (if i < 10 then "000" else if i < 100 then "00" else if i < 1000 then "0" else "")
    ++ toString i

/-- Population setup: per clinic a free-ride draw, then a low-quality draw
consumed only when the clinic is not a free rider (Python's `and`
short-circuits), then `add_clinic`.  Returns the engine (whose fixed
configuration is the one `simulate` passes, i.e. the constructor defaults)
and the next draw-counter value. -/
def mkClinics (cfg : SimConfig) (rand : ℕ → ℚ) : ℕ → ReciprocityEngine × ℕ
  | 0 => ({ }, 0)
  | n+1 =>
    let p := mkClinics cfg rand n
    let fr : Bool := decide (rand p.2 < cfg.free_rider_fraction)
    let lq : Bool := if fr then false else decide (rand (p.2+1) < cfg.low_quality_fraction)
    let k2 : ℕ := if fr then p.2 + 1 else p.2 + 2
    let sp : ℚ := if fr then pylit 5 100 else pylit 75 100
    (p.1.add_clinic
      { clinic_id := clinicName n, credits := cfg.starter_credits, reputation := 1,
        opted_in := true, share_propensity := sp, free_ride := fr, low_quality := lq,
        last_round_contribution := 0 }, k2)

/-- The driver's mutable state: the engine plus the stream counters and the
two outcome counters. -/
structure SimState where
  engine : ReciprocityEngine
  k : ℕ
  pk : ℕ
  t : ℕ
  total_reads : ℕ
  total_publishes : ℕ

/-- The low-detail summary of a low-quality publish. -/
def summaryLow : String := "Generic note: exercises advised. (low detail)"

/-- The structured summary of a regular publish. -/
def summaryHigh : String :=
  "Structured summary: Dx, red flags checked, plan-of-care, response, discharge status."

/-- The list a read attempt sees: the returned history on a normal return,
nothing on a raise (unreachable in the driver). -/
def histOf (x : Except PyErr (List HistoryEntry)) : List HistoryEntry :=
  match x with
  | .ok l => l
  | .error _ => []

/-- Whether `publish_history` consumed its dispute-gate draw: exactly when
the eligibility checks passed. -/
def pubConsumed (x : Except PyErr Bool) : Bool :=
  match x with
  | .ok false => false
  | _ => true

/-- Whether `publish_history` reported success. -/
def pubOk (x : Except PyErr Bool) : Bool :=
  match x with
  | .ok true => true
  | _ => false

/-- The publish attempt of one clinic in one round (reached when
`will_publish` is true): patient choice, joint quality/summary generation
(low-quality clinics draw the low band with probability 0.6), entry
creation (`tstamp` is the clock reading of its timestamp; one tick), then
`publish_history`; the dispute-gate draw is consumed exactly when the
eligibility checks pass. -/
def publishAction (patients : List String) (rand : ℕ → ℚ) (pick : ℕ → ℕ)
    (tstamp : ℚ) (cid : String) (lq : Bool) (s : SimState) : SimState :=
  let pid := patients.getD (pick s.pk % patients.length) ""
  let gen : ℚ × String × ℕ :=
    if lq && decide (rand s.k < pylit 6 10) then
      (pyuniform (pylit 1 10) (pylit 5 10) (rand (s.k + 1)), summaryLow, s.k + 2)
    else if lq then
      (pyuniform (pylit 6 10) (pylit 1 1) (rand (s.k + 1)), summaryHigh, s.k + 2)
    else
      (pyuniform (pylit 6 10) (pylit 1 1) (rand s.k), summaryHigh, s.k + 1)
  let entry : HistoryEntry :=
    { patient_id := pid, author_clinic_id := cid, summary := gen.2.1,
      quality_score := gen.1, timestamp := tstamp, stake := 0, redacted_author := true }
  let r := s.engine.publish_history cid entry (rand gen.2.2)
  { engine := r.2,
    k := gen.2.2 + (if pubConsumed r.1 then 1 else 0),
    pk := s.pk + 1,
    t := s.t + 1,
    total_reads := s.total_reads,
    total_publishes := s.total_publishes + (if pubOk r.1 then 1 else 0) }

/-- The probability-gated read attempt of one clinic's turn: on a gate draw
below 0.55, choose a patient, issue a token (one clock tick), call
`read_history` (two more ticks) and count a successful non-empty read. -/
def readPhase (patients : List String) (rand : ℕ → ℚ) (pick : ℕ → ℕ)
    (clock : ℕ → ℚ) (cid : String) (s : SimState) : SimState :=
  if decide (rand s.k < pylit 55 100) then
    let pid := patients.getD (pick s.pk % patients.length) ""
    let token := s.engine.issue_patient_token pid cid 3600 (clock s.t)
    let r := s.engine.read_history cid token (clock (s.t + 1)) (clock (s.t + 2))
    let hist := histOf r.1
    { engine := r.2, k := s.k + 1, pk := s.pk + 1, t := s.t + 3,
      total_reads := s.total_reads + (if hist.isEmpty then 0 else 1),
      total_publishes := s.total_publishes }
  else { s with k := s.k + 1 }

/-- The publish attempt of one clinic's turn: never for a free rider;
unconditional when the (current) balance is below 6; otherwise gated by a
propensity draw. -/
def publishPhase (patients : List String) (rand : ℕ → ℚ) (pick : ℕ → ℕ)
    (clock : ℕ → ℚ) (cid : String) (s : SimState) : SimState :=
  match s.engine.findClinic cid with
  | none => s
  | some c1 =>
    if c1.free_ride then s
    else if c1.credits < 6 then
      publishAction patients rand pick (clock s.t) cid c1.low_quality s
    else if decide (rand s.k < c1.share_propensity) then
      publishAction patients rand pick (clock s.t) cid c1.low_quality { s with k := s.k + 1 }
    else { s with k := s.k + 1 }

/-- The opt-out consideration of one clinic's turn: only with a critically
low balance, a 5% draw, and only for free riders or degraded reputation. -/
def optOutPhase (rand : ℕ → ℚ) (cid : String) (s : SimState) : SimState :=
  match s.engine.findClinic cid with
  | none => s
  | some c2 =>
    if c2.credits < 3 then
      if decide (rand s.k < pylit 5 100) then
        if c2.free_ride || decide (c2.reputation < pylit 7 10) then
          let e3 := s.engine.updateClinic cid (fun c => { c with opted_in := false })
          { s with k := s.k + 1, engine := e3 }
        else { s with k := s.k + 1 }
      else { s with k := s.k + 1 }
    else s

/-- One clinic's turn within a round (the body of the inner loop of
`simulate`): skip if opted out, then read attempt, publish attempt, opt-out
consideration, each phase reading the live clinic state. -/
def clinicStep (patients : List String) (rand : ℕ → ℚ) (pick : ℕ → ℕ)
    (clock : ℕ → ℚ) (s : SimState) (cid : String) : SimState :=
  match s.engine.findClinic cid with
  | none => s
  | some clinic =>
    if !clinic.opted_in then s
    else
      optOutPhase rand cid
        (publishPhase patients rand pick clock cid
          (readPhase patients rand pick clock cid s))

/-- One round: decay, then every clinic's turn over a snapshot of the
clinic ids, then pool distribution. -/
def roundStep (patients : List String) (rand : ℕ → ℚ) (pick : ℕ → ℕ)
    (clock : ℕ → ℚ) (s : SimState) : SimState :=
  let s0 : SimState := { s with engine := s.engine.decay_credits }
  let ids := s0.engine.clinics.map Clinic.clinic_id
  let s1 := ids.foldl (clinicStep patients rand pick clock) s0
  { s1 with engine := s1.engine.distribute_pool }

/-- The result record of `simulate` (every field is a Python float). -/
structure SimResult where
  opt_in_rate : ℚ
  total_reads : ℚ
  total_publishes : ℚ
  avg_credits : ℚ
  avg_reputation : ℚ
  remaining_clinics : ℚ

/-- The driver state at the start of round 0: the freshly built population
with all counters zero and the clinic-archetype draws already consumed. -/
def initSimState (cfg : SimConfig) (rand : ℕ → ℚ) : SimState :=
  let p := mkClinics cfg rand cfg.n_clinics
  { engine := p.1, k := p.2, pk := 0, t := 0, total_reads := 0, total_publishes := 0 }

/-- The patient-id list `[f"P{i:04d}" for i in range(n_patients)]`. -/
def patientsList (cfg : SimConfig) : List String :=
  (List.range cfg.n_patients).map patientName

/-- The aggregate record `simulate` reports from its final state. -/
def resultsOf (s : SimState) : SimResult :=
  let e := s.engine
  { opt_in_rate := e.opt_in_rate,
    total_reads := floatOfInt (s.total_reads : ℤ),
    total_publishes := floatOfInt (s.total_publishes : ℤ),
    avg_credits := pydiv (((e.clinics.map Clinic.credits).sum : ℤ) : ℚ) (e.clinics.length : ℚ),
    avg_reputation :=
      pydiv (floatSum (e.clinics.map Clinic.reputation)) (floatOfInt (e.clinics.length : ℤ)),
    remaining_clinics := floatOfInt (((e.clinics.filter (fun c => c.opted_in)).length : ℤ)) }

/-- The simulation entry point: build the population, run the rounds, report
the aggregate record. -/
def simulate (cfg : SimConfig) (rand : ℕ → ℚ) (pick : ℕ → ℕ) (clock : ℕ → ℚ) : SimResult :=
  resultsOf ((List.range cfg.rounds).foldl
    (fun s _ => roundStep (patientsList cfg) rand pick clock s) (initSimState cfg rand))

/-- Clock streams whose readings all lie within one token lifetime (3600 s)
of each other: every token issued during the run is still valid when it is
checked.  Real runs satisfy this by a huge margin. -/
def ClockAdmissible (clock : ℕ → ℚ) : Prop := ∀ i j : ℕ, clock j ≤ clock i + 3600

/-- Timestamp erasure of a history entry. -/
def eraseEntry (h : HistoryEntry) : HistoryEntry := { h with timestamp := 0 }

/-- Two engines are clock-congruent when they agree on everything except
the stored `time.time()` readings: the configuration, the clinics, the pool
and the timestamp-erased histories and access log coincide. -/
structure EngineRel (e₁ e₂ : ReciprocityEngine) : Prop where
  read_cost : e₁.read_cost = e₂.read_cost
  publish_reward : e₁.publish_reward = e₂.publish_reward
  publish_stake : e₁.publish_stake = e₂.publish_stake
  decay_per_round : e₁.decay_per_round = e₂.decay_per_round
  min_credits_to_read : e₁.min_credits_to_read = e₂.min_credits_to_read
  dispute_probability : e₁.dispute_probability = e₂.dispute_probability
  dispute_threshold : e₁.dispute_threshold = e₂.dispute_threshold
  slash_amount : e₁.slash_amount = e₂.slash_amount
  match_pool_rate : e₁.match_pool_rate = e₂.match_pool_rate
  clinics : e₁.clinics = e₂.clinics
  histories : e₁.patient_histories.map (fun p => (p.1, p.2.map eraseEntry)) =
    e₂.patient_histories.map (fun p => (p.1, p.2.map eraseEntry))
  log : e₁.access_log.map (fun a => a.2) = e₂.access_log.map (fun a => a.2)
  pool_balance : e₁.pool_balance = e₂.pool_balance

theorem engineRel_refl (e : ReciprocityEngine) : EngineRel e e :=
  ⟨rfl, rfl, rfl, rfl, rfl, rfl, rfl, rfl, rfl, rfl, rfl, rfl, rfl⟩

/-- Two driver states are clock-congruent when their engines are and every
counter coincides. -/
structure StateRel (s₁ s₂ : SimState) : Prop where
  engine : EngineRel s₁.engine s₂.engine
  k : s₁.k = s₂.k
  pk : s₁.pk = s₂.pk
  t : s₁.t = s₂.t
  total_reads : s₁.total_reads = s₂.total_reads
  total_publishes : s₁.total_publishes = s₂.total_publishes

theorem findClinic_rel {e₁ e₂ : ReciprocityEngine} (h : EngineRel e₁ e₂) (cid : String) :
    e₁.findClinic cid = e₂.findClinic cid := by
  unfold ReciprocityEngine.findClinic
  rw [h.clinics]

theorem historyOf_map_erase (hs : List (String × List HistoryEntry)) (pid : String) :
    ((((hs.map (fun p => (p.1, p.2.map eraseEntry))).find? (fun p => p.1 == pid)).map
      (fun p => p.2)).getD []) =
    ((((hs.find? (fun p => p.1 == pid)).map (fun p => p.2)).getD []).map eraseEntry) := by
  rw [List.find?_map]
  have hp : ((fun p : String × List HistoryEntry => p.1 == pid) ∘
      (fun p : String × List HistoryEntry => (p.1, p.2.map eraseEntry))) =
      (fun p : String × List HistoryEntry => p.1 == pid) := by
    funext x
    rfl
  rw [hp]
  cases hs.find? (fun p => p.1 == pid) with
  | none => rfl
  | some a => rfl

theorem historyOf_rel {e₁ e₂ : ReciprocityEngine} (h : EngineRel e₁ e₂) (pid : String) :
    (e₁.historyOf pid).map eraseEntry = (e₂.historyOf pid).map eraseEntry := by
  unfold ReciprocityEngine.historyOf
  rw [← historyOf_map_erase e₁.patient_histories pid,
    ← historyOf_map_erase e₂.patient_histories pid, h.histories]

theorem updateClinic_rel {e₁ e₂ : ReciprocityEngine} (h : EngineRel e₁ e₂) (cid : String)
    (f : Clinic → Clinic) :
    EngineRel (e₁.updateClinic cid f) (e₂.updateClinic cid f) := by
  refine ⟨h.read_cost, h.publish_reward, h.publish_stake, h.decay_per_round,
    h.min_credits_to_read, h.dispute_probability, h.dispute_threshold, h.slash_amount,
    h.match_pool_rate, ?_, h.histories, h.log, h.pool_balance⟩
  show e₁.clinics.map _ = e₂.clinics.map _
  rw [h.clinics]

theorem can_read_rel {e₁ e₂ : ReciprocityEngine} (h : EngineRel e₁ e₂) (cid : String)
    (tok₁ tok₂ : AccessToken) (now₁ now₂ : ℚ)
    (hiss : tok₁.issued_to_clinic_id = tok₂.issued_to_clinic_id)
    (hexp₁ : ¬ tok₁.expires_at < now₁) (hexp₂ : ¬ tok₂.expires_at < now₂) :
    e₁.can_read cid tok₁ now₁ = e₂.can_read cid tok₂ now₂ := by
  unfold ReciprocityEngine.can_read
  rw [findClinic_rel h cid]
  cases e₂.findClinic cid with
  | none => rfl
  | some c =>
    rw [hiss]
    simp only [if_neg hexp₁, if_neg hexp₂]
    rw [h.min_credits_to_read]

theorem readSuccess_rel {e₁ e₂ : ReciprocityEngine} (h : EngineRel e₁ e₂) (cid : String)
    (tok₁ tok₂ : AccessToken) (hpid : tok₁.patient_id = tok₂.patient_id) (nl₁ nl₂ : ℚ) :
    EngineRel (e₁.readSuccess cid tok₁ nl₁) (e₂.readSuccess cid tok₂ nl₂) := by
  refine ⟨h.read_cost, h.publish_reward, h.publish_stake, h.decay_per_round,
    h.min_credits_to_read, h.dispute_probability, h.dispute_threshold, h.slash_amount,
    h.match_pool_rate, ?_, h.histories, ?_, ?_⟩
  · show e₁.clinics.map _ = e₂.clinics.map _
    rw [h.clinics, h.read_cost]
  · show (e₁.access_log ++ [(nl₁, cid, tok₁.patient_id)]).map (fun a => a.2) =
      (e₂.access_log ++ [(nl₂, cid, tok₂.patient_id)]).map (fun a => a.2)
    rw [List.map_append, List.map_append, h.log, hpid]
    rfl
  · show e₁.pool_balance + pyint (pymul (floatOfInt e₁.read_cost) e₁.match_pool_rate) =
      e₂.pool_balance + pyint (pymul (floatOfInt e₂.read_cost) e₂.match_pool_rate)
    rw [h.pool_balance, h.read_cost, h.match_pool_rate]

theorem read_history_rel {e₁ e₂ : ReciprocityEngine} (h : EngineRel e₁ e₂) (cid : String)
    (tok₁ tok₂ : AccessToken) (nc₁ nl₁ nc₂ nl₂ : ℚ)
    (hpid : tok₁.patient_id = tok₂.patient_id)
    (hiss : tok₁.issued_to_clinic_id = tok₂.issued_to_clinic_id)
    (hexp₁ : ¬ tok₁.expires_at < nc₁) (hexp₂ : ¬ tok₂.expires_at < nc₂) :
    Except.map (List.map eraseEntry) (e₁.read_history cid tok₁ nc₁ nl₁).1 =
      Except.map (List.map eraseEntry) (e₂.read_history cid tok₂ nc₂ nl₂).1 ∧
    EngineRel (e₁.read_history cid tok₁ nc₁ nl₁).2 (e₂.read_history cid tok₂ nc₂ nl₂).2 := by
  have hcr := can_read_rel h cid tok₁ tok₂ nc₁ nc₂ hiss hexp₁ hexp₂
  unfold ReciprocityEngine.read_history
  rw [hcr]
  cases e₂.can_read cid tok₂ nc₂ with
  | error err => exact ⟨rfl, h⟩
  | ok b =>
    cases b
    · exact ⟨rfl, h⟩
    · rw [findClinic_rel h cid]
      cases e₂.findClinic cid with
      | none => exact ⟨rfl, h⟩
      | some c =>
        rw [h.read_cost]
        dsimp only
        split_ifs with hlt
        · exact ⟨rfl, h⟩
        · constructor
          · show Except.map (List.map eraseEntry) (.ok (e₁.historyOf tok₁.patient_id)) =
              Except.map (List.map eraseEntry) (.ok (e₂.historyOf tok₂.patient_id))
            simp only [Except.map]
            rw [hpid, historyOf_rel h]
          · exact readSuccess_rel h cid tok₁ tok₂ hpid nl₁ nl₂

theorem stakedEntry_rel {e₁ e₂ : ReciprocityEngine} (h : EngineRel e₁ e₂)
    {en₁ en₂ : HistoryEntry} (hen : eraseEntry en₁ = eraseEntry en₂) :
    eraseEntry (e₁.stakedEntry en₁) = eraseEntry (e₂.stakedEntry en₂) := by
  have hp := congrArg HistoryEntry.patient_id hen
  have ha := congrArg HistoryEntry.author_clinic_id hen
  have hs := congrArg HistoryEntry.summary hen
  have hq := congrArg HistoryEntry.quality_score hen
  have hr := congrArg HistoryEntry.redacted_author hen
  show ({ en₁ with stake := e₁.publish_stake, timestamp := 0 } : HistoryEntry) =
    { en₂ with stake := e₂.publish_stake, timestamp := 0 }
  simp only [eraseEntry] at hp ha hs hq hr
  rw [show (en₁.patient_id = en₂.patient_id) from hp,
    show (en₁.author_clinic_id = en₂.author_clinic_id) from ha,
    show (en₁.summary = en₂.summary) from hs,
    show (en₁.quality_score = en₂.quality_score) from hq,
    show (en₁.redacted_author = en₂.redacted_author) from hr, h.publish_stake]

theorem appendHistory_map_erase (hs : List (String × List HistoryEntry)) (pid : String)
    (en : HistoryEntry) :
    (ReciprocityEngine.appendHistory hs pid en).map (fun p => (p.1, p.2.map eraseEntry)) =
    ReciprocityEngine.appendHistory (hs.map (fun p => (p.1, p.2.map eraseEntry))) pid
      (eraseEntry en) := by
  unfold ReciprocityEngine.appendHistory
  have hany : (hs.map (fun p => (p.1, p.2.map eraseEntry))).any (fun p => p.1 == pid) =
      hs.any (fun p => p.1 == pid) := by
    rw [List.any_map]
    rfl
  rw [hany]
  split_ifs with hmem
  · rw [List.map_map, List.map_map]
    apply List.map_congr_left
    intro x _
    simp only [Function.comp]
    split_ifs with hx1
    · show ((x.1, (x.2 ++ [en]).map eraseEntry) : String × List HistoryEntry) =
        (x.1, x.2.map eraseEntry ++ [eraseEntry en])
      rw [List.map_append]
      rfl
    · rfl
  · rw [List.map_append]
    rfl

theorem publishSuccess_rel {e₁ e₂ : ReciprocityEngine} (h : EngineRel e₁ e₂) (cid : String)
    {en₁ en₂ : HistoryEntry} (hen : eraseEntry en₁ = eraseEntry en₂) :
    EngineRel (e₁.publishSuccess cid en₁) (e₂.publishSuccess cid en₂) := by
  have hp : en₁.patient_id = en₂.patient_id := by
    have hp' := congrArg HistoryEntry.patient_id hen
    simpa [eraseEntry] using hp'
  refine ⟨h.read_cost, h.publish_reward, h.publish_stake, h.decay_per_round,
    h.min_credits_to_read, h.dispute_probability, h.dispute_threshold, h.slash_amount,
    h.match_pool_rate, ?_, ?_, h.log, h.pool_balance⟩
  · show e₁.clinics.map _ = e₂.clinics.map _
    rw [h.clinics, h.publish_stake, h.publish_reward]
  · show (ReciprocityEngine.appendHistory e₁.patient_histories
        (e₁.stakedEntry en₁).patient_id (e₁.stakedEntry en₁)).map
        (fun p => (p.1, p.2.map eraseEntry)) =
      (ReciprocityEngine.appendHistory e₂.patient_histories
        (e₂.stakedEntry en₂).patient_id (e₂.stakedEntry en₂)).map
        (fun p => (p.1, p.2.map eraseEntry))
    rw [appendHistory_map_erase, appendHistory_map_erase, h.histories,
      stakedEntry_rel h hen,
      show (e₁.stakedEntry en₁).patient_id = (e₂.stakedEntry en₂).patient_id from hp]

theorem maybe_dispute_rel {e₁ e₂ : ReciprocityEngine} (h : EngineRel e₁ e₂)
    {en₁ en₂ : HistoryEntry} (hen : eraseEntry en₁ = eraseEntry en₂) :
    (e₁.maybe_dispute en₁).1 = (e₂.maybe_dispute en₂).1 ∧
    EngineRel (e₁.maybe_dispute en₁).2 (e₂.maybe_dispute en₂).2 := by
  have hq : en₁.quality_score = en₂.quality_score := by
    have hq' := congrArg HistoryEntry.quality_score hen
    simpa [eraseEntry] using hq'
  have ha : en₁.author_clinic_id = en₂.author_clinic_id := by
    have ha' := congrArg HistoryEntry.author_clinic_id hen
    simpa [eraseEntry] using ha'
  unfold ReciprocityEngine.maybe_dispute
  rw [hq, h.dispute_threshold, ha]
  split_ifs with hqd
  · rw [findClinic_rel h en₂.author_clinic_id]
    cases e₂.findClinic en₂.author_clinic_id with
    | none => exact ⟨rfl, h⟩
    | some a =>
      refine ⟨rfl, ?_⟩
      show EngineRel (e₁.updateClinic en₂.author_clinic_id _)
        (e₂.updateClinic en₂.author_clinic_id _)
      rw [h.slash_amount]
      exact updateClinic_rel h en₂.author_clinic_id _
  · exact ⟨rfl, h⟩

theorem publish_history_rel {e₁ e₂ : ReciprocityEngine} (h : EngineRel e₁ e₂) (cid : String)
    {en₁ en₂ : HistoryEntry} (draw : ℚ) (hen : eraseEntry en₁ = eraseEntry en₂) :
    (e₁.publish_history cid en₁ draw).1 = (e₂.publish_history cid en₂ draw).1 ∧
    EngineRel (e₁.publish_history cid en₁ draw).2 (e₂.publish_history cid en₂ draw).2 := by
  unfold ReciprocityEngine.publish_history
  rw [findClinic_rel h cid]
  cases e₂.findClinic cid with
  | none => exact ⟨rfl, h⟩
  | some c =>
    rw [h.publish_stake, h.dispute_probability]
    dsimp only
    split_ifs with h1 h2 h3
    · exact ⟨rfl, h⟩
    · exact ⟨rfl, h⟩
    · have hmd := maybe_dispute_rel (publishSuccess_rel h cid hen) (stakedEntry_rel h hen)
      exact ⟨by rw [hmd.1], hmd.2⟩
    · exact ⟨rfl, publishSuccess_rel h cid hen⟩

theorem decay_rel {e₁ e₂ : ReciprocityEngine} (h : EngineRel e₁ e₂) :
    EngineRel e₁.decay_credits e₂.decay_credits := by
  refine ⟨h.read_cost, h.publish_reward, h.publish_stake, h.decay_per_round,
    h.min_credits_to_read, h.dispute_probability, h.dispute_threshold, h.slash_amount,
    h.match_pool_rate, ?_, h.histories, h.log, h.pool_balance⟩
  show e₁.clinics.map _ = e₂.clinics.map _
  rw [h.clinics, h.decay_per_round]

theorem distribute_rel {e₁ e₂ : ReciprocityEngine} (h : EngineRel e₁ e₂) :
    EngineRel e₁.distribute_pool e₂.distribute_pool := by
  rw [distribute_pool_eq, distribute_pool_eq]
  rw [h.clinics, h.pool_balance]
  split_ifs with hif
  · exact ⟨h.read_cost, h.publish_reward, h.publish_stake, h.decay_per_round,
      h.min_credits_to_read, h.dispute_probability, h.dispute_threshold, h.slash_amount,
      h.match_pool_rate, rfl, h.histories, h.log, rfl⟩
  · exact ⟨h.read_cost, h.publish_reward, h.publish_stake, h.decay_per_round,
      h.min_credits_to_read, h.dispute_probability, h.dispute_threshold, h.slash_amount,
      h.match_pool_rate, rfl, h.histories, h.log, rfl⟩

theorem opt_in_rate_rel {e₁ e₂ : ReciprocityEngine} (h : EngineRel e₁ e₂) :
    e₁.opt_in_rate = e₂.opt_in_rate := by
  unfold ReciprocityEngine.opt_in_rate
  rw [h.clinics]

theorem stateRel_refl (s : SimState) : StateRel s s :=
  ⟨engineRel_refl _, rfl, rfl, rfl, rfl, rfl⟩

theorem eraseEntry_timestamps (pid aid sm : String) (q τ₁ τ₂ : ℚ) (st : ℤ) (rd : Bool) :
    eraseEntry { patient_id := pid, author_clinic_id := aid, summary := sm,
                 quality_score := q, timestamp := τ₁, stake := st,
                 redacted_author := rd } =
    eraseEntry { patient_id := pid, author_clinic_id := aid, summary := sm,
                 quality_score := q, timestamp := τ₂, stake := st,
                 redacted_author := rd } := rfl

theorem histOf_isEmpty_rel {x y : Except PyErr (List HistoryEntry)}
    (hxy : Except.map (List.map eraseEntry) x = Except.map (List.map eraseEntry) y) :
    (histOf x).isEmpty = (histOf y).isEmpty := by
  cases x with
  | error e₁ =>
    cases y with
    | error e₂ => rfl
    | ok l₂ => simp [Except.map] at hxy
  | ok l₁ =>
    cases y with
    | error e₂ => simp [Except.map] at hxy
    | ok l₂ =>
      simp only [Except.map, Except.ok.injEq] at hxy
      have hl := congrArg List.length hxy
      simp only [List.length_map] at hl
      show l₁.isEmpty = l₂.isEmpty
      cases l₁ with
      | nil =>
        cases l₂ with
        | nil => rfl
        | cons b u => simp at hl
      | cons a t =>
        cases l₂ with
        | nil => simp at hl
        | cons b u => rfl

theorem publishAction_rel (patients : List String) (rand : ℕ → ℚ) (pick : ℕ → ℕ)
    (τ₁ τ₂ : ℚ) (cid : String) (lq : Bool) {s₁ s₂ : SimState} (hs : StateRel s₁ s₂) :
    StateRel (publishAction patients rand pick τ₁ cid lq s₁)
      (publishAction patients rand pick τ₂ cid lq s₂) := by
  simp only [publishAction]
  rw [hs.k, hs.pk, hs.t, hs.total_reads, hs.total_publishes]
  generalize patients.getD (pick s₂.pk % patients.length) "" = pid
  generalize (if lq && decide (rand s₂.k < pylit 6 10) then
      (pyuniform (pylit 1 10) (pylit 5 10) (rand (s₂.k + 1)), summaryLow, s₂.k + 2)
    else if lq then
      (pyuniform (pylit 6 10) (pylit 1 1) (rand (s₂.k + 1)), summaryHigh, s₂.k + 2)
    else
      (pyuniform (pylit 6 10) (pylit 1 1) (rand s₂.k), summaryHigh, s₂.k + 1)) = g
  have hp := publish_history_rel hs.engine cid (rand g.2.2)
    (eraseEntry_timestamps pid cid g.2.1 g.1 τ₁ τ₂ 0 true)
  exact ⟨hp.2, by rw [hp.1], rfl, rfl, rfl, by rw [hp.1]⟩

theorem readPhase_rel (patients : List String) (rand : ℕ → ℚ) (pick : ℕ → ℕ)
    {c₁ c₂ : ℕ → ℚ} (h₁ : ClockAdmissible c₁) (h₂ : ClockAdmissible c₂) (cid : String)
    {s₁ s₂ : SimState} (hs : StateRel s₁ s₂) :
    StateRel (readPhase patients rand pick c₁ cid s₁)
      (readPhase patients rand pick c₂ cid s₂) := by
  simp only [readPhase]
  rw [hs.k, hs.pk, hs.t, hs.total_reads, hs.total_publishes]
  by_cases hg : decide (rand s₂.k < pylit 55 100) = true
  · simp only [if_pos hg]
    generalize patients.getD (pick s₂.pk % patients.length) "" = pid
    have hexp₁ : ¬ (s₁.engine.issue_patient_token pid cid 3600 (c₁ s₂.t)).expires_at <
        c₁ (s₂.t + 1) := by
      show ¬ c₁ s₂.t + ((3600 : ℤ) : ℚ) < c₁ (s₂.t + 1)
      push_cast
      exact not_lt.mpr (h₁ s₂.t (s₂.t + 1))
    have hexp₂ : ¬ (s₂.engine.issue_patient_token pid cid 3600 (c₂ s₂.t)).expires_at <
        c₂ (s₂.t + 1) := by
      show ¬ c₂ s₂.t + ((3600 : ℤ) : ℚ) < c₂ (s₂.t + 1)
      push_cast
      exact not_lt.mpr (h₂ s₂.t (s₂.t + 1))
    obtain ⟨hfst, heng⟩ := read_history_rel hs.engine cid
      (s₁.engine.issue_patient_token pid cid 3600 (c₁ s₂.t))
      (s₂.engine.issue_patient_token pid cid 3600 (c₂ s₂.t))
      (c₁ (s₂.t + 1)) (c₁ (s₂.t + 2)) (c₂ (s₂.t + 1)) (c₂ (s₂.t + 2)) rfl rfl hexp₁ hexp₂
    exact ⟨heng, rfl, rfl, rfl, by rw [histOf_isEmpty_rel hfst], rfl⟩
  · simp only [if_neg hg]
    exact ⟨hs.engine, rfl, rfl, rfl, rfl, rfl⟩

theorem publishPhase_rel (patients : List String) (rand : ℕ → ℚ) (pick : ℕ → ℕ)
    (c₁ c₂ : ℕ → ℚ) (cid : String) {s₁ s₂ : SimState} (hs : StateRel s₁ s₂) :
    StateRel (publishPhase patients rand pick c₁ cid s₁)
      (publishPhase patients rand pick c₂ cid s₂) := by
  unfold publishPhase
  rw [findClinic_rel hs.engine cid]
  cases hfc : s₂.engine.findClinic cid with
  | none => exact hs
  | some c1 =>
    dsimp only
    rw [hs.k]
    split_ifs with h1 h2 h3
    · exact hs
    · exact publishAction_rel patients rand pick (c₁ s₁.t) (c₂ s₂.t) cid c1.low_quality hs
    · have hs' : StateRel { s₁ with k := s₂.k + 1 } { s₂ with k := s₂.k + 1 } :=
        ⟨hs.engine, rfl, hs.pk, hs.t, hs.total_reads, hs.total_publishes⟩
      exact publishAction_rel patients rand pick (c₁ s₁.t) (c₂ s₂.t) cid c1.low_quality hs'
    · exact ⟨hs.engine, rfl, hs.pk, hs.t, hs.total_reads, hs.total_publishes⟩

theorem optOutPhase_rel (rand : ℕ → ℚ) (cid : String) {s₁ s₂ : SimState}
    (hs : StateRel s₁ s₂) :
    StateRel (optOutPhase rand cid s₁) (optOutPhase rand cid s₂) := by
  unfold optOutPhase
  rw [findClinic_rel hs.engine cid]
  cases hfc : s₂.engine.findClinic cid with
  | none => exact hs
  | some c2 =>
    dsimp only
    rw [hs.k]
    split_ifs with h1 h2 h3
    · exact ⟨updateClinic_rel hs.engine cid _, rfl, hs.pk, hs.t, hs.total_reads,
        hs.total_publishes⟩
    · exact ⟨hs.engine, rfl, hs.pk, hs.t, hs.total_reads, hs.total_publishes⟩
    · exact ⟨hs.engine, rfl, hs.pk, hs.t, hs.total_reads, hs.total_publishes⟩
    · exact hs

theorem clinicStep_rel (patients : List String) (rand : ℕ → ℚ) (pick : ℕ → ℕ)
    {c₁ c₂ : ℕ → ℚ} (h₁ : ClockAdmissible c₁) (h₂ : ClockAdmissible c₂) (cid : String)
    {s₁ s₂ : SimState} (hs : StateRel s₁ s₂) :
    StateRel (clinicStep patients rand pick c₁ s₁ cid)
      (clinicStep patients rand pick c₂ s₂ cid) := by
  unfold clinicStep
  rw [findClinic_rel hs.engine cid]
  cases hfc : s₂.engine.findClinic cid with
  | none => exact hs
  | some clinic =>
    dsimp only
    split_ifs with h1
    · exact hs
    · exact optOutPhase_rel rand cid
        (publishPhase_rel patients rand pick c₁ c₂ cid
          (readPhase_rel patients rand pick h₁ h₂ cid hs))

theorem foldSteps_rel (patients : List String) (rand : ℕ → ℚ) (pick : ℕ → ℕ)
    {c₁ c₂ : ℕ → ℚ} (h₁ : ClockAdmissible c₁) (h₂ : ClockAdmissible c₂)
    (ids : List String) :
    ∀ {s₁ s₂ : SimState}, StateRel s₁ s₂ →
      StateRel (ids.foldl (clinicStep patients rand pick c₁) s₁)
        (ids.foldl (clinicStep patients rand pick c₂) s₂) := by
  induction ids with
  | nil => intro s₁ s₂ hs; exact hs
  | cons cid ids ih =>
    intro s₁ s₂ hs
    exact ih (clinicStep_rel patients rand pick h₁ h₂ cid hs)

theorem roundStep_rel (patients : List String) (rand : ℕ → ℚ) (pick : ℕ → ℕ)
    {c₁ c₂ : ℕ → ℚ} (h₁ : ClockAdmissible c₁) (h₂ : ClockAdmissible c₂)
    {s₁ s₂ : SimState} (hs : StateRel s₁ s₂) :
    StateRel (roundStep patients rand pick c₁ s₁) (roundStep patients rand pick c₂ s₂) := by
  unfold roundStep
  dsimp only
  have hs0 : StateRel { s₁ with engine := s₁.engine.decay_credits }
      { s₂ with engine := s₂.engine.decay_credits } :=
    ⟨decay_rel hs.engine, hs.k, hs.pk, hs.t, hs.total_reads, hs.total_publishes⟩
  have hids : s₁.engine.decay_credits.clinics.map Clinic.clinic_id =
      s₂.engine.decay_credits.clinics.map Clinic.clinic_id := by
    rw [(decay_rel hs.engine).clinics]
  rw [hids]
  have hfold := foldSteps_rel patients rand pick h₁ h₂
    (s₂.engine.decay_credits.clinics.map Clinic.clinic_id) hs0
  exact ⟨distribute_rel hfold.engine, hfold.k, hfold.pk, hfold.t, hfold.total_reads,
    hfold.total_publishes⟩

theorem results_rel {s₁ s₂ : SimState} (hs : StateRel s₁ s₂) :
    resultsOf s₁ = resultsOf s₂ := by
  unfold resultsOf
  dsimp only
  rw [opt_in_rate_rel hs.engine, hs.total_reads, hs.total_publishes, hs.engine.clinics]

/-- C10: `simulate` is deterministic in its seed.  Every stochastic decision
is drawn from the injected streams `rand` (the seeded `random.random()` /
`random.uniform` sequence) and `pick` (the seeded `random.choice` index
sequence), so two runs with the same seed — i.e. the same streams — and the
same configuration produce bit-identical result records even though the
wall clock `time.time()` may read differently in the two runs, as long as
each clock's readings stay within one token lifetime (3600 s) of each
other, which keeps every token issued by the driver valid at its check.
In particular the result record never depends on the wall clock at all
beyond that validity margin: opt-in rate, total reads, total publishes,
average credits, average reputation and remaining-clinic count coincide
exactly. -/
theorem simulate_deterministic (cfg : SimConfig) (rand : ℕ → ℚ) (pick : ℕ → ℕ)
    (clock₁ clock₂ : ℕ → ℚ)
    (h₁ : ClockAdmissible clock₁) (h₂ : ClockAdmissible clock₂) :
    simulate cfg rand pick clock₁ = simulate cfg rand pick clock₂ := by
  unfold simulate
  apply results_rel
  have key : ∀ (l : List ℕ) {s₁ s₂ : SimState}, StateRel s₁ s₂ →
      StateRel (l.foldl (fun s _ => roundStep (patientsList cfg) rand pick clock₁ s) s₁)
        (l.foldl (fun s _ => roundStep (patientsList cfg) rand pick clock₂ s) s₂) := by
    intro l
    induction l with
    | nil => intro s₁ s₂ hs; exact hs
    | cons n l ih =>
      intro s₁ s₂ hs
      exact ih (roundStep_rel (patientsList cfg) rand pick h₁ h₂ hs)
  exact key (List.range cfg.rounds) (stateRel_refl (initSimState cfg rand))

/-- Witness for C10: the default configuration with concrete streams; the
constant clocks 0 and 1 are both admissible and the two runs' result
records coincide. -/
theorem simulate_deterministic_witness :
    ClockAdmissible (fun _ => (0 : ℚ)) ∧ ClockAdmissible (fun _ => (1 : ℚ)) ∧
    simulate { } (fun _ => 0) (fun _ => 0) (fun _ => (0 : ℚ)) =
      simulate { } (fun _ => 0) (fun _ => 0) (fun _ => (1 : ℚ)) :=
  ⟨by intro i j; norm_num, by intro i j; norm_num,
    simulate_deterministic { } (fun _ => 0) (fun _ => 0) (fun _ => (0 : ℚ))
      (fun _ => (1 : ℚ)) (by intro i j; norm_num) (by intro i j; norm_num)⟩

end IncentiveDesign
